import Mathlib

/-!
# Attendance tracker dashboards

A shallow embedding of the client-side logic of `AdminDashboard.jsx` (the log
filter effect) and `EmployeeDashboard.jsx` (status derivation, monthly and team
summaries, check-in / check-out handlers), followed by theorems about it.

JavaScript built-ins whose result depends on the host (date parsing, the local
time zone, the locale date format, Unicode lower-casing, the clock) are fields
of `Env`; everything the components themselves compute is defined here.
-/

set_option autoImplicit false

namespace AttendanceTracker

/-! ## JavaScript values -/

/-- A JSON field holding text: missing (`undefined`), `null`, or a string. -/
inductive JsVal where
  | undefined
  | null
  | str (s : String)
deriving DecidableEq, Repr

/-- JavaScript truthiness of such a field: only a non-empty string is truthy. -/
def JsVal.truthy : JsVal → Bool
  | .str s => decide (s ≠ "")
  | _ => false

/-- Host-dependent built-ins. -/
structure Env where
  /-- JS `Date.parse`: the time value in milliseconds, `none` for NaN. -/
  parse : String → Option Int
  /-- Offset of local time from UTC, in milliseconds, at a UTC time value. -/
  localTZA : Int → Int
  /-- JS `Date.prototype.toLocaleDateString()` of a valid date. -/
  toLocaleDateString : Int → String
  /-- JS `String.prototype.toLowerCase`. -/
  toLowerCase : String → String
  /-- The time value of `new Date()`. -/
  now : Int
  /-- JS `Number::toString` of a finite integer value of at least `10^21`. -/
  largeToString : Nat → String

/-- JS `TimeClip`: time values beyond 8.64e15 ms are not dates. -/
def timeClip (t : Int) : Option Int :=
  if t.natAbs ≤ 8640000000000000 then some t else none

/-- JS `new Date(v)`: the time value, `none` for an Invalid Date.
`new Date(undefined)` is invalid, `new Date(null)` is the epoch. -/
def newDate (env : Env) : JsVal → Option Int
  | .undefined => none
  | .null => some 0
  | .str s => (env.parse s).bind timeClip

/-- JS `a >= b` on two dates (false when either is invalid). -/
def dateGe (a b : Option Int) : Bool :=
  match a, b with
  | some x, some y => decide (y ≤ x)
  | _, _ => false

/-- JS `a <= b` on two dates (false when either is invalid). -/
def dateLe (a b : Option Int) : Bool :=
  match a, b with
  | some x, some y => decide (x ≤ y)
  | _, _ => false

/-- JS `d.toLocaleDateString()`. -/
def localeDateString (env : Env) : Option Int → String
  | none => "Invalid Date"
  | some t => env.toLocaleDateString t

/-- JS `hay.includes(needle)`. -/
def includes (hay needle : String) : Bool :=
  hay.data.tails.any (fun t => needle.data.isPrefixOf t)

/-- WhiteSpace and LineTerminator code points, as stripped by `trim`. -/
def isJsWhiteSpace (c : Char) : Bool :=
  let n := c.toNat
  n = 0x09 || n = 0x0A || n = 0x0B || n = 0x0C || n = 0x0D || n = 0x20 ||
  n = 0xA0 || n = 0x1680 || (0x2000 ≤ n && n ≤ 0x200A) || n = 0x2028 ||
  n = 0x2029 || n = 0x202F || n = 0x205F || n = 0x3000 || n = 0xFEFF

/-- JS `s.trim()`. -/
def jsTrim (s : String) : String :=
  String.mk ((s.data.dropWhile isJsWhiteSpace).reverse.dropWhile isJsWhiteSpace).reverse

/-! ## Data model -/

/-- The user reference of a log; the data model gives it an identifier and a
username, both text. -/
structure User where
  _id : String
  username : String
deriving DecidableEq, Repr

/-- One attendance log as received from the backend. -/
structure Log where
  user : Option User
  employeeId : JsVal
  checkIn : JsVal
  checkOut : JsVal
  createdAt : JsVal
deriving DecidableEq, Repr

/-! ## AdminDashboard: the filter effect -/

/-- The filter inputs held in component state. -/
structure Criteria where
  searchTerm : String
  fromDate : String
  toDate : String
deriving DecidableEq, Repr

/-- The callback of the search filter (lines 40-43). -/
def searchMatch (env : Env) (searchTerm : String) (log : Log) : Bool :=
  (match log.user with
    | none => false
    | some u => includes (env.toLowerCase u.username) (env.toLowerCase searchTerm)) ||
  (log.checkIn.truthy &&
    includes (env.toLowerCase (localeDateString env (newDate env log.checkIn)))
      (env.toLowerCase searchTerm))

/-- The callback of the `fromDate` filter (line 47). -/
def fromMatch (env : Env) (fromDate : String) (log : Log) : Bool :=
  dateGe (newDate env log.checkIn) (newDate env (.str fromDate))

/-- The callback of the `toDate` filter (line 50). -/
def toMatch (env : Env) (toDate : String) (log : Log) : Bool :=
  dateLe (newDate env log.checkIn) (newDate env (.str toDate))

/-- The value passed to `setFilteredLogs` by the filter effect (lines 36-54). -/
def filterLogs (env : Env) (logs : List Log) (c : Criteria) : List Log :=
  let filtered := logs
  let filtered :=
    if jsTrim c.searchTerm ≠ "" then filtered.filter (searchMatch env c.searchTerm)
    else filtered
  let filtered :=
    if c.fromDate ≠ "" then filtered.filter (fromMatch env c.fromDate) else filtered
  let filtered :=
    if c.toDate ≠ "" then filtered.filter (toMatch env c.toDate) else filtered
  filtered

/-! ## Date fields (ECMAScript time values, milliseconds since the epoch) -/

/-- Milliseconds per day. -/
def msPerDay : Int := 86400000

/-- Milliseconds per hour. -/
def msPerHour : Int := 3600000

/-- JS `Day(t)`: the day number of a time value. -/
def day (t : Int) : Int := t / msPerDay

/-- Proleptic Gregorian (year, month 1-12, day of month) of a day number. -/
def civilFromDays (z : Int) : Int × Int × Int :=
  let z := z + 719468
  let era := z / 146097
  let doe := z - era * 146097
  let yoe := (doe - doe / 1460 + doe / 36524 - doe / 146096) / 365
  let y := yoe + era * 400
  let doy := doe - (365 * yoe + yoe / 4 - yoe / 100)
  let mp := (5 * doy + 2) / 153
  let d := doy - (153 * mp + 2) / 5 + 1
  let m := if mp < 10 then mp + 3 else mp - 9
  (if m ≤ 2 then y + 1 else y, m, d)

/-- JS `YearFromTime(t)`. -/
def yearFromTime (t : Int) : Int := (civilFromDays (day t)).1

/-- JS `MonthFromTime(t)`, 0 for January. -/
def monthFromTime (t : Int) : Int := (civilFromDays (day t)).2.1 - 1

/-- JS `DateFromTime(t)`, the day of the month. -/
def dateFromTime (t : Int) : Int := (civilFromDays (day t)).2.2

/-- JS `HourFromTime(t)`. -/
def hourFromTime (t : Int) : Int := (t / msPerHour) % 24

/-- JS `MinFromTime(t)`. -/
def minFromTime (t : Int) : Int := (t / 60000) % 60

/-- JS `SecFromTime(t)`. -/
def secFromTime (t : Int) : Int := (t / 1000) % 60

/-- JS `msFromTime(t)`. -/
def msFromTime (t : Int) : Int := t % 1000

/-- JS `LocalTime(t)`. -/
def localTime (env : Env) (t : Int) : Int := t + env.localTZA t

/-- JS `d.getMonth()`; `none` is NaN. -/
def getMonth (env : Env) (d : Option Int) : Option Int :=
  d.map (fun t => monthFromTime (localTime env t))

/-- JS `d.getFullYear()`; `none` is NaN. -/
def getFullYear (env : Env) (d : Option Int) : Option Int :=
  d.map (fun t => yearFromTime (localTime env t))

/-- JS `d.getHours()`; `none` is NaN. -/
def getHours (env : Env) (d : Option Int) : Option Int :=
  d.map (fun t => hourFromTime (localTime env t))

/-- JS `a === b` on two numbers, either of which may be NaN. -/
def numStrictEq (a b : Option Int) : Bool :=
  match a, b with
  | some x, some y => decide (x = y)
  | _, _ => false

/-- JS `a > k` for a number that may be NaN. -/
def numGt (a : Option Int) (k : Int) : Bool :=
  match a with
  | some x => decide (k < x)
  | none => false

/-- Decimal digits of `n`, left-padded with zeros to at least `width`. -/
def padDigits (width n : Nat) : List Char :=
  let ds := Nat.toDigits 10 n
  List.replicate (width - ds.length) '0' ++ ds

/-- The year part of `toISOString`: four digits, or a sign and six digits
outside 0..9999. -/
def isoYear (y : Int) : List Char :=
  if 0 ≤ y ∧ y ≤ 9999 then padDigits 4 y.toNat
  else (if y < 0 then '-' else '+') :: padDigits 6 y.natAbs

/-- JS `d.toISOString()` of a valid time value. -/
def isoString (t : Int) : String :=
  String.mk (isoYear (yearFromTime t) ++ '-' :: padDigits 2 (monthFromTime t + 1).toNat ++
    '-' :: padDigits 2 (dateFromTime t).toNat ++ 'T' :: padDigits 2 (hourFromTime t).toNat ++
    ':' :: padDigits 2 (minFromTime t).toNat ++ ':' :: padDigits 2 (secFromTime t).toNat ++
    '.' :: padDigits 3 (msFromTime t).toNat ++ ['Z'])

/-- JS `d.toISOString()`; an Invalid Date throws a RangeError, here `none`. -/
def toISOString (d : Option Int) : Option String := d.map isoString

/-- JS `s.slice(0, 10)`. -/
def slice10 (s : String) : String := String.mk (s.data.take 10)

/-! ## Numbers (IEEE-754 binary64, round to nearest, ties to even) -/

/-- A Number: NaN, an infinity, or the finite value `m * 2^e`. Zero carries no
sign: the sums and quotients computed by the summary never yield `-0`. -/
inductive JsNum where
  | nan
  | inf (negative : Bool)
  | fin (m : Int) (e : Int)
deriving Repr

/-- Halving `n` until it is below 2, at most `fuel` times, counting the steps. -/
def log2Fuel : Nat → Nat → Nat
  | 0, _ => 0
  | fuel + 1, n => if n < 2 then 0 else log2Fuel fuel (n / 2) + 1

/-- The position of the leading bit of `n`: the floor of its binary logarithm. -/
def floorLog2 (n : Nat) : Nat := log2Fuel n n

/-- The integer nearest to `p / q`, ties going to the even one. -/
def roundHalfEven (p q : Nat) : Nat :=
  let m := p / q
  let r := p % q
  if q < 2 * r ∨ (2 * r = q ∧ m % 2 = 1) then m + 1 else m

/-- The numerator and denominator of `(p / q) / 2^e`. -/
def scaleBy (p q : Nat) (e : Int) : Nat × Nat :=
  if 0 ≤ e then (p, q * 2 ^ e.toNat) else (p * 2 ^ (-e).toNat, q)

/-- The exponent `e` with `2^52 ≤ (p / q) / 2^e < 2^53`, for positive `p` and
`q`: the estimate from the leading bits, lowered by one when it is too high. -/
def normalExponent (p q : Nat) : Int :=
  let e0 : Int := (floorLog2 p : Int) - (floorLog2 q : Int) - 52
  if (scaleBy p q e0).1 < 2 ^ 52 * (scaleBy p q e0).2 then e0 - 1 else e0

/-- The binary64 value nearest to `± p / q` (`q` positive): the ratio is scaled
to 53 significant bits, the exponent not going below the subnormal `-1074`,
and rounded to an integer; results of `2^1024` and more overflow. -/
def roundDouble (negative : Bool) (p q : Nat) : JsNum :=
  if p = 0 then .fin 0 0
  else
    let e : Int := max (normalExponent p q) (-1074)
    let s := scaleBy p q e
    let m := roundHalfEven s.1 s.2
    if 971 < e ∨ (e = 971 ∧ m = 2 ^ 53) then .inf negative
    else .fin (if negative then -(m : Int) else (m : Int)) e

/-- The Number of an integer (a time value). -/
def JsNum.ofInt (t : Int) : JsNum := roundDouble (decide (t < 0)) t.natAbs 1

/-- The Number value of a Date (`valueOf`): NaN for an Invalid Date. -/
def JsNum.ofDate : Option Int → JsNum
  | none => .nan
  | some t => JsNum.ofInt t

/-- Unary minus. -/
def JsNum.neg : JsNum → JsNum
  | .nan => .nan
  | .inf s => .inf (!s)
  | .fin m e => .fin (-m) e

/-- The exact sum of two finite values, rounded. -/
def addFinite (m1 e1 m2 e2 : Int) : JsNum :=
  let e := min e1 e2
  let m := m1 * 2 ^ (e1 - e).toNat + m2 * 2 ^ (e2 - e).toNat
  let s := scaleBy m.natAbs 1 (-e)
  roundDouble (decide (m < 0)) s.1 s.2

/-- JS `a + b`. -/
def JsNum.add : JsNum → JsNum → JsNum
  | .nan, _ => .nan
  | .inf _, .nan => .nan
  | .inf a, .inf b => if a = b then .inf a else .nan
  | .inf a, .fin _ _ => .inf a
  | .fin _ _, .nan => .nan
  | .fin _ _, .inf b => .inf b
  | .fin m1 e1, .fin m2 e2 => addFinite m1 e1 m2 e2

/-- JS `a - b`. -/
def JsNum.sub (a b : JsNum) : JsNum := JsNum.add a (JsNum.neg b)

/-- JS `a / k` for a positive integer constant `k`. -/
def JsNum.divNat (a : JsNum) (k : Nat) : JsNum :=
  match a with
  | .nan => .nan
  | .inf s => .inf s
  | .fin m e =>
    let s := scaleBy m.natAbs k (-e)
    roundDouble (decide (m < 0)) s.1 s.2

/-- The digits of `toFixed(2)` for the integer `n` of hundredths. -/
def fixed2Digits (n : Nat) : List Char :=
  let ds := padDigits 3 n
  ds.take (ds.length - 2) ++ '.' :: ds.drop (ds.length - 2)

/-- JS `x.toFixed(2)`. A finite value below `10^21` is rendered through the integer
`n` for which `n / 100` is nearest to it (the larger `n` on a tie); larger values
are rendered by the host's `Number::toString`, given here as `largeToString`
applied to the (integer) magnitude. -/
def JsNum.toFixed2 (largeToString : Nat → String) : JsNum → String
  | .nan => "NaN"
  | .inf s => if s then "-Infinity" else "Infinity"
  | .fin m e =>
    let sign := if m < 0 then "-" else ""
    let s := scaleBy m.natAbs 1 (-e)
    if 10 ^ 21 * s.2 ≤ s.1 then sign ++ largeToString (s.1 / s.2)
    else sign ++ String.mk (fixed2Digits ((2 * 100 * s.1 + s.2) / (2 * s.2)))

/-! ## EmployeeDashboard -/

/-- The object passed to `setMonthlySummary`. -/
structure MonthlySummary where
  totalDays : Int
  presentDays : Int
  absentDays : Int
  totalHours : String
deriving DecidableEq, Repr

/-- The object passed to `setTeamSummary`. -/
structure TeamSummary where
  totalEmployees : Int
  presentToday : Int
  absentToday : Int
  lateArrivals : Int
deriving DecidableEq, Repr

/-- The component state (the `useState` cells of lines 11-18). -/
structure State where
  logs : List Log
  teamLogs : List Log
  loading : Bool
  message : String
  currentStatus : String
  date : Int
  monthlySummary : Option MonthlySummary
  teamSummary : Option TeamSummary
deriving DecidableEq, Repr

/-- The callback of the month filter (lines 104-107). -/
def inCurrentMonth (env : Env) (currentMonth currentYear : Option Int) (log : Log) : Bool :=
  let logDate := newDate env (if log.checkIn.truthy then log.checkIn else log.createdAt)
  numStrictEq (getMonth env logDate) currentMonth &&
    numStrictEq (getFullYear env logDate) currentYear

/-- The reducer of `totalHours` (lines 112-118). -/
def hoursStep (env : Env) (sum : JsNum) (log : Log) : JsNum :=
  if log.checkIn.truthy && log.checkOut.truthy then
    let start := newDate env log.checkIn
    let finish := newDate env log.checkOut
    JsNum.add sum (JsNum.divNat (JsNum.sub (JsNum.ofDate finish) (JsNum.ofDate start)) 3600000)
  else sum

/-- The logs kept by the month filter of `generateMonthlySummary`. -/
def monthlyLogs (env : Env) (personalLogs : List Log) : List Log :=
  let now := some env.now
  let currentMonth := getMonth env now
  let currentYear := getFullYear env now
  personalLogs.filter (inCurrentMonth env currentMonth currentYear)

/-- The value `generateMonthlySummary` passes to `setMonthlySummary`
(lines 94-127); `none` is `null`. -/
def generateMonthlySummary (env : Env) (personalLogs : List Log) : Option MonthlySummary :=
  if personalLogs.length = 0 then none
  else
    let monthlyLogs := monthlyLogs env personalLogs
    let totalDays : Int := monthlyLogs.length
    let presentDays : Int := (monthlyLogs.filter (fun log => log.checkIn.truthy)).length
    let absentDays := totalDays - presentDays
    let totalHours :=
      (monthlyLogs.foldl (hoursStep env) (.fin 0 0)).toFixed2 env.largeToString
    some { totalDays := totalDays, presentDays := presentDays, absentDays := absentDays,
           totalHours := totalHours }

deriving instance DecidableEq for Except

/-- JS `Array.prototype.filter` with a callback that may throw. -/
def filterE {α ε : Type} (p : α → Except ε Bool) : List α → Except ε (List α)
  | [] => .ok []
  | x :: xs =>
    match p x with
    | .error err => .error err
    | .ok b =>
      match filterE p xs with
      | .error err => .error err
      | .ok ys => .ok (if b then x :: ys else ys)

/-- The key `log.user?._id || log.employeeId` (line 139). -/
def employeeKey (log : Log) : JsVal :=
  match log.user with
  | some u => if u._id ≠ "" then .str u._id else log.employeeId
  | none => log.employeeId

/-- The callback of the `presentToday` filter (line 140); `toISOString` throws
on an Invalid Date. -/
def checkedInToday (env : Env) (todayDateStr : String) (log : Log) : Except String Bool :=
  if log.checkIn.truthy then
    match toISOString (newDate env log.checkIn) with
    | none => .error "RangeError: Invalid time value"
    | some s => .ok (decide (slice10 s = todayDateStr))
  else .ok false

/-- The callback of the `lateArrivals` filter (line 142). -/
def isLateArrival (env : Env) (log : Log) : Bool :=
  log.checkIn.truthy && numGt (getHours env (newDate env log.checkIn)) 9

/-- The value `generateTeamSummary` passes to `setTeamSummary` (lines 130-150),
or the exception it throws. -/
def generateTeamSummary (env : Env) (teamLogsData : List Log) :
    Except String (Option TeamSummary) :=
  if teamLogsData.length = 0 then .ok none
  else
    let todayDateStr := slice10 (isoString env.now)
    let totalEmployees : Int := ((teamLogsData.map employeeKey).dedup).length
    match filterE (checkedInToday env todayDateStr) teamLogsData with
    | .error err => .error err
    | .ok present =>
      let presentToday : Int := present.length
      let absentToday := totalEmployees - presentToday
      let lateArrivals : Int := (teamLogsData.filter (isLateArrival env)).length
      .ok (some { totalEmployees := totalEmployees, presentToday := presentToday,
                  absentToday := absentToday, lateArrivals := lateArrivals })

/-- The status chosen by `fetchLogs` from the response (lines 29-33). -/
def deriveStatus (data : List Log) : String :=
  match data with
  | lastLog :: _ =>
    if lastLog.checkIn.truthy && !lastLog.checkOut.truthy then "checked-in"
    else "checked-out"
  | [] => "checked-out"

/-- The state once `fetchLogs` has settled (lines 21-42); `res` is the response
body, `none` when the request failed. -/
def fetchLogs (env : Env) (st : State) (res : Option (List Log)) : State :=
  let st := { st with loading := true }
  let st :=
    match res with
    | some data =>
      let st := { st with logs := data }
      let st := { st with currentStatus := deriveStatus data }
      { st with monthlySummary := generateMonthlySummary env data }
    | none =>
      let st := { st with logs := [] }
      { st with monthlySummary := none }
  { st with loading := false }

/-- The state once `fetchTeamLogs` has settled (lines 45-56). -/
def fetchTeamLogs (env : Env) (st : State) (res : Option (List Log)) : State :=
  match res with
  | some data =>
    let st := { st with teamLogs := data }
    match generateTeamSummary env data with
    | .ok summary => { st with teamSummary := summary }
    | .error _ =>
      let st := { st with teamLogs := [] }
      { st with teamSummary := none }
  | none =>
    let st := { st with teamLogs := [] }
    { st with teamSummary := none }

/-- The outcome of a POST: success, or a failure carrying
`err.response?.data?.message`. -/
inductive PostResult where
  | ok
  | failed (message : JsVal)
deriving DecidableEq, Repr

/-- The value of `message || fallback`. -/
def orElse (message : JsVal) (fallback : String) : String :=
  match message with
  | .str s => if s ≠ "" then s else fallback
  | _ => fallback

/-- The state once `handleCheckIn` and the refetch it starts have settled
(lines 63-76); `res` is the response to that refetch. -/
def handleCheckIn (env : Env) (st : State) (post : PostResult) (res : Option (List Log)) :
    State :=
  let st := { st with message := "" }
  match post with
  | .ok =>
    let st := { st with message := "Check-in recorded successfully" }
    let st := { st with currentStatus := "checked-in" }
    fetchLogs env st res
  | .failed message =>
    { st with message := orElse message "Failed to check in. Please try again." }

/-- The state once `handleCheckOut` and the refetch it starts have settled
(lines 78-91). -/
def handleCheckOut (env : Env) (st : State) (post : PostResult) (res : Option (List Log)) :
    State :=
  let st := { st with message := "" }
  match post with
  | .ok =>
    let st := { st with message := "Check-out recorded successfully" }
    let st := { st with currentStatus := "checked-out" }
    fetchLogs env st res
  | .failed message =>
    { st with message := orElse message "Failed to check out. Please try again." }

/-! ## A concrete host: UTC, en-US dates, ASCII lower-casing -/

/-- Day number of a proleptic Gregorian date. -/
def daysFromCivil (y m d : Int) : Int :=
  let y := if m ≤ 2 then y - 1 else y
  let era := y / 400
  let yoe := y - era * 400
  let mp := if 2 < m then m - 3 else m + 9
  let doy := (153 * mp + 2) / 5 + d - 1
  let doe := yoe * 365 + yoe / 4 - yoe / 100 + doy
  era * 146097 + doe - 719468

/-- The number written by a non-empty run of decimal digits. -/
def readDigits (cs : List Char) : Option Int :=
  if cs ≠ [] ∧ cs.all Char.isDigit = true then
    some (cs.foldl (fun n c => 10 * n + ((c.toNat - 48 : Nat) : Int)) 0)
  else none

/-- The time of day in milliseconds written as `HH:mm`, `HH:mm:ss` or
`HH:mm:ss.sss`, with an optional trailing `Z`. -/
def readTime (cs : List Char) : Option Int :=
  let cs := if cs.getLast? = some 'Z' then cs.dropLast else cs
  let hm : Option Int :=
    if (cs.drop 2).take 1 = [':'] then
      (readDigits (cs.take 2)).bind fun h =>
        (readDigits ((cs.drop 3).take 2)).bind fun m =>
          if h < 24 ∧ m < 60 ∧ ((cs.drop 3).take 2).length = 2 then
            some (h * 3600000 + m * 60000)
          else none
    else none
  let rest := cs.drop 5
  hm.bind fun t =>
    if rest = [] then some t
    else if rest.take 1 = [':'] ∧ ((rest.drop 1).take 2).length = 2 then
      (readDigits ((rest.drop 1).take 2)).bind fun s =>
        let frac := rest.drop 3
        if 60 ≤ s then none
        else if frac = [] then some (t + s * 1000)
        else if frac.take 1 = ['.'] ∧ (frac.drop 1).length = 3 then
          (readDigits (frac.drop 1)).map fun ms => t + s * 1000 + ms
        else none
    else none

/-- JS `Date.parse` on the ISO forms `YYYY-MM-DD` and `YYYY-MM-DDTHH:mm[:ss[.sss]][Z]`
on a host whose local time is UTC. -/
def parseIso (s : String) : Option Int :=
  let cs := s.data
  let date : Option Int :=
    if (cs.take 10).length = 10 ∧ (cs.drop 4).take 1 = ['-'] ∧ (cs.drop 7).take 1 = ['-'] then
      (readDigits (cs.take 4)).bind fun y =>
        (readDigits ((cs.drop 5).take 2)).bind fun m =>
          (readDigits ((cs.drop 8).take 2)).bind fun d =>
            if 1 ≤ m ∧ m ≤ 12 ∧ 1 ≤ d ∧ d ≤ 31 then some (daysFromCivil y m d * 86400000)
            else none
    else none
  let rest := cs.drop 10
  date.bind fun t0 =>
    if rest = [] then some t0
    else if rest.take 1 = ['T'] then (readTime (rest.drop 1)).map fun t => t0 + t
    else none

/-- The en-US `toLocaleDateString` rendering, `M/D/YYYY`, in UTC. -/
def enUSDateString (t : Int) : String :=
  String.mk (Nat.toDigits 10 (monthFromTime t + 1).toNat ++ '/' ::
    Nat.toDigits 10 (dateFromTime t).toNat ++ '/' :: Nat.toDigits 10 (yearFromTime t).toNat)

/-- ASCII lower-casing. -/
def asciiLower (s : String) : String := String.mk (s.data.map Char.toLower)

/-- A host in UTC with en-US dates whose clock reads `now`. Numbers of `10^21`
and more, which no example below reaches, are written in plain digits. -/
def utcHost (now : Int) : Env :=
  { parse := parseIso
    localTZA := fun _ => 0
    toLocaleDateString := enUSDateString
    toLowerCase := asciiLower
    now := now
    largeToString := fun n => String.mk (Nat.toDigits 10 n) }

/-- A UTC host at the start of a span of some 490,000 years, which also reads
the two expanded-year date strings below. -/
def farHost : Env :=
  { utcHost (-7864468347629298) with
    parse := fun s =>
      if s = "-247246-12-02T18:59:30.702Z" then some (-7864468347629298)
      else if s = "+244688-04-18T16:12:24.701Z" then some 7659449655144701
      else parseIso s }

/-! ## Specification-side predicates for the admin filter -/

/-- The log has a user whose username contains the term, both lower-cased. -/
def usernameContains (env : Env) (term : String) (log : Log) : Bool :=
  match log.user with
  | none => false
  | some u => includes (env.toLowerCase u.username) (env.toLowerCase term)

/-- The log has a checkIn whose locale date string contains the term, both
lower-cased. -/
def dateTextContains (env : Env) (term : String) (log : Log) : Bool :=
  log.checkIn.truthy &&
    includes (env.toLowerCase (localeDateString env (newDate env log.checkIn)))
      (env.toLowerCase term)

/-- The search condition of the specification. -/
def passesSearch (env : Env) (c : Criteria) (log : Log) : Prop :=
  jsTrim c.searchTerm = "" ∨ usernameContains env c.searchTerm log = true ∨
    dateTextContains env c.searchTerm log = true

/-- The checkIn timestamp of a log: the date its checkIn text denotes. A log
whose checkIn is missing or null has none. -/
def checkInTime (env : Env) (log : Log) : Option Int :=
  match log.checkIn with
  | .str s => (env.parse s).bind timeClip
  | _ => none

/-- The date written in a bound of the criteria. -/
def boundTime (env : Env) (bound : String) : Option Int :=
  (env.parse bound).bind timeClip

/-- Both timestamps exist and the first is not after the second. -/
def timeLe (a b : Option Int) : Prop :=
  ∃ x y, a = some x ∧ b = some y ∧ x ≤ y

instance timeLeDecidable (a b : Option Int) : Decidable (timeLe a b) :=
  match a, b with
  | some x, some y =>
    if h : x ≤ y then isTrue ⟨x, y, rfl, rfl, h⟩
    else isFalse (fun ⟨_, _, hx, hy, hle⟩ =>
      h (by rw [Option.some.inj hx, Option.some.inj hy]; exact hle))
  | none, _ => isFalse (fun ⟨_, _, hx, _, _⟩ => Option.noConfusion hx)
  | some _, none => isFalse (fun ⟨_, _, _, hy, _⟩ => Option.noConfusion hy)

/-- The `fromDate` condition: no bound, or the log has a checkIn timestamp on or
after it. -/
def passesFrom (env : Env) (c : Criteria) (log : Log) : Prop :=
  c.fromDate = "" ∨ timeLe (boundTime env c.fromDate) (checkInTime env log)

/-- The `toDate` condition: no bound, or the log has a checkIn timestamp on or
before it. -/
def passesTo (env : Env) (c : Criteria) (log : Log) : Prop :=
  c.toDate = "" ∨ timeLe (checkInTime env log) (boundTime env c.toDate)

/-- All three conditions at once. -/
def passesAll (env : Env) (c : Criteria) (log : Log) : Prop :=
  passesSearch env c log ∧ passesFrom env c log ∧ passesTo env c log

instance passesFromDecidable (env : Env) (c : Criteria) (log : Log) :
    Decidable (passesFrom env c log) :=
  inferInstanceAs (Decidable (_ ∨ _))

instance passesToDecidable (env : Env) (c : Criteria) (log : Log) :
    Decidable (passesTo env c log) :=
  inferInstanceAs (Decidable (_ ∨ _))

instance passesAllDecidable (env : Env) (c : Criteria) (log : Log) :
    Decidable (passesAll env c log) :=
  inferInstanceAs (Decidable ((_ ∨ _ ∨ _) ∧ _ ∧ _))

/-- A log of the user `name` with the given checkIn and checkOut. -/
def sampleLog (name : String) (checkIn checkOut : JsVal) : Log :=
  { user := some { _id := name, username := name }, employeeId := .undefined,
    checkIn := checkIn, checkOut := checkOut, createdAt := .undefined }

/-- The three guarded passes amount to one pass with a single predicate. -/
def keep (env : Env) (c : Criteria) (log : Log) : Bool :=
  (decide (jsTrim c.searchTerm = "") || searchMatch env c.searchTerm log) &&
  ((decide (c.fromDate = "") || fromMatch env c.fromDate log) &&
   (decide (c.toDate = "") || toMatch env c.toDate log))

/-! ## Specification-side definitions for the summaries -/

/-- The log has a checkIn whose ISO calendar date is today's. -/
def checkedInTodaySpec (env : Env) (log : Log) : Bool :=
  log.checkIn.truthy &&
    match newDate env log.checkIn with
    | some t => decide (slice10 (isoString t) = slice10 (isoString env.now))
    | none => false

/-- The log has both a checkIn and a checkOut. -/
def hasBoth (log : Log) : Bool := log.checkIn.truthy && log.checkOut.truthy

/-- The Number `(checkOut - checkIn) / 3600000` of one log. -/
def hoursOf (env : Env) (log : Log) : JsNum :=
  JsNum.divNat
    (JsNum.sub (JsNum.ofDate (newDate env log.checkOut)) (JsNum.ofDate (newDate env log.checkIn)))
    3600000

/-- The exact duration of one log in milliseconds (0 without two valid dates). -/
def durationMs (env : Env) (log : Log) : Int :=
  match newDate env log.checkOut, newDate env log.checkIn with
  | some finish, some start => finish - start
  | _, _ => 0

/-- The logs that `totalHours` counts: those of the current month and year with
both a checkIn and a checkOut. -/
def countedLogs (env : Env) (personalLogs : List Log) : List Log :=
  (monthlyLogs env personalLogs).filter hasBoth

/-- The two dates of the log are valid and its checkOut is not before its
checkIn (the invariant of the data model). -/
def validSpan (env : Env) (log : Log) : Bool :=
  match newDate env log.checkIn, newDate env log.checkOut with
  | some start, some finish => decide (start ≤ finish)
  | _, _ => false

/-- The timestamp falls in the calendar month and year of the clock, in local
time. -/
def inMonthOfNow (env : Env) (t : Int) : Bool :=
  decide (monthFromTime (localTime env t) = monthFromTime (localTime env env.now) ∧
    yearFromTime (localTime env t) = yearFromTime (localTime env env.now))

/-- The log has both a checkIn and a checkOut, and its checkIn timestamp falls
in the current month and year. -/
def countsThisMonth (env : Env) (log : Log) : Bool :=
  hasBoth log &&
    match checkInTime env log with
    | some t => inMonthOfNow env t
    | none => false

/-- The exact sum in milliseconds of `checkOut - checkIn` over the logs of the
current month and year that have both timestamps. -/
def exactMs (env : Env) (personalLogs : List Log) : Int :=
  ((personalLogs.filter (countsThisMonth env)).map (durationMs env)).sum

/-- The exact sum of hours, as a rational: the milliseconds divided by
3,600,000. -/
def exactHours (env : Env) (personalLogs : List Log) : ℚ :=
  (exactMs env personalLogs : ℚ) / 3600000

/-- A count of hundredths written with two decimals. -/
def renderHundredths (n : Int) : String :=
  if n < 0 then "-" ++ String.mk (fixed2Digits n.natAbs) else String.mk (fixed2Digits n.toNat)

/-- The exact sum of hours rounded to two decimals, halves going up. -/
def specTotalHours (env : Env) (personalLogs : List Log) : String :=
  renderHundredths ⌊exactHours env personalLogs * 100 + 1 / 2⌋

/-- The hundredths nearest to `hours`, a half going to the even neighbour. -/
def halfEvenHundredths (hours : ℚ) : Int :=
  let f := ⌊hours * 100⌋
  let r := hours * 100 - f
  if r < 1 / 2 then f else if 1 / 2 < r then f + 1 else if f % 2 = 0 then f else f + 1

/-- The exact sum of hours rounded to two decimals, halves going to even. -/
def specTotalHoursHalfEven (env : Env) (personalLogs : List Log) : String :=
  renderHundredths (halfEvenHundredths (exactHours env personalLogs))

/-- The Number `x` is finite with the exact value `z`. -/
def JsNum.IsValue (x : JsNum) (z : ℚ) : Prop :=
  ∃ (m e : Int), x = .fin m e ∧ (m : ℚ) * (2 : ℚ) ^ e = z

/-- The magnitude of `z` has at most 53 significant bits above the units. -/
def Representable (z : ℚ) : Prop :=
  ∃ (M E : Nat), M < 2 ^ 53 ∧ E ≤ 900 ∧ |z| = (M : ℚ) * (2 : ℚ) ^ (E : Int)

/-- The state of a freshly mounted dashboard. -/
def initialState (env : Env) : State :=
  { logs := [], teamLogs := [], loading := true, message := "", currentStatus := "",
    date := env.now, monthlySummary := none, teamSummary := none }

/-! ## Lemmas on the admin filter -/

theorem searchMatch_iff (env : Env) (term : String) (log : Log) :
    searchMatch env term log = true ↔
      usernameContains env term log = true ∨ dateTextContains env term log = true := by
  unfold searchMatch usernameContains dateTextContains
  simp

theorem filterLogs_eq_filter (env : Env) (logs : List Log) (c : Criteria) :
    filterLogs env logs c = logs.filter (keep env c) := by
  unfold filterLogs keep
  by_cases h1 : jsTrim c.searchTerm = "" <;> by_cases h2 : c.fromDate = "" <;>
    by_cases h3 : c.toDate = "" <;> simp [h1, h2, h3, List.filter_filter, Bool.and_comm,
      Bool.and_left_comm]

theorem dateLe_iff (a b : Option Int) : dateLe a b = true ↔ timeLe a b := by
  unfold dateLe timeLe
  cases a with
  | none => simp
  | some x =>
    cases b with
    | none => simp
    | some y => simp

theorem dateGe_iff (a b : Option Int) : dateGe a b = true ↔ timeLe b a := by
  unfold dateGe timeLe
  cases a with
  | none => simp
  | some x =>
    cases b with
    | none => simp
    | some y => simp

theorem newDate_eq_checkInTime (env : Env) (log : Log) (h : log.checkIn ≠ .null) :
    newDate env log.checkIn = checkInTime env log := by
  unfold checkInTime
  cases hc : log.checkIn with
  | undefined => rfl
  | null => exact absurd hc h
  | str s => rfl

theorem keep_iff (env : Env) (c : Criteria) (log : Log)
    (h : log.checkIn = .null → c.fromDate = "" ∧ c.toDate = "") :
    keep env c log = true ↔ passesAll env c log := by
  unfold keep passesAll passesSearch passesFrom passesTo fromMatch toMatch boundTime
  simp only [Bool.and_eq_true, Bool.or_eq_true, decide_eq_true_eq, searchMatch_iff,
    dateLe_iff, dateGe_iff]
  have hb : ∀ bound, newDate env (.str bound) = (env.parse bound).bind timeClip := fun _ => rfl
  simp only [hb]
  by_cases hn : log.checkIn = .null
  · obtain ⟨hf, ht⟩ := h hn
    simp [hf, ht]
  · rw [newDate_eq_checkInTime env log hn]

/-- Apart from logs whose checkIn is `null` meeting a date bound, the filtered
list is `logs` restricted, in order, to exactly the logs that pass the search,
`fromDate` and `toDate` conditions together. -/
theorem filterLogs_eq_spec (env : Env) (logs : List Log) (c : Criteria)
    (hnull : ∀ log ∈ logs, log.checkIn = .null → c.fromDate = "" ∧ c.toDate = "") :
    filterLogs env logs c = logs.filter (fun log => decide (passesAll env c log)) ∧
    (filterLogs env logs c).Sublist logs ∧
    ∀ log, log ∈ filterLogs env logs c ↔ log ∈ logs ∧ passesAll env c log := by
  have h : filterLogs env logs c = logs.filter (fun log => decide (passesAll env c log)) := by
    rw [filterLogs_eq_filter]
    apply List.filter_congr
    intro log hlog
    by_cases hk : keep env c log = true
    · simp [hk, (keep_iff env c log (hnull log hlog)).mp hk]
    · have hp : ¬ passesAll env c log :=
        fun hp => hk ((keep_iff env c log (hnull log hlog)).mpr hp)
      simp [hk, hp]
  refine ⟨h, ?_, ?_⟩
  · rw [h]
    exact List.filter_sublist logs
  · intro log
    rw [h]
    simp [List.mem_filter]

/-- The trimming used by the search guard, on examples. -/
theorem jsTrim_examples :
    jsTrim "  Ali \n" = "Ali" ∧ jsTrim " \t " = "" ∧ jsTrim "a b" = "a b" ∧
    jsTrim "\u00a0x\u2028" = "x" := by
  decide

/-- The date bounds are inclusive: a checkIn at the very instant of `toDate` or
of `fromDate` is kept, one millisecond outside is dropped. -/
theorem filterLogs_bounds_inclusive :
    filterLogs (utcHost 0)
        [sampleLog "a" (.str "2024-03-31T00:00:00.000") .null,
         sampleLog "b" (.str "2024-03-31T00:00:00.001") .null]
        { searchTerm := "", fromDate := "", toDate := "2024-03-31" } =
      [sampleLog "a" (.str "2024-03-31T00:00:00.000") .null] ∧
    filterLogs (utcHost 0)
        [sampleLog "a" (.str "2024-03-30T23:59:59.999") .null,
         sampleLog "b" (.str "2024-03-31T00:00:00.000") .null]
        { searchTerm := "", fromDate := "2024-03-31", toDate := "" } =
      [sampleLog "b" (.str "2024-03-31T00:00:00.000") .null] := by
  decide

/-! ## Theorems on the admin filter -/

/-- C1, evaluated: with `toDate` 2024-03-31 the filter returns both logs, though
the first has no checkIn timestamp (its checkIn is `null`) and so fails the
`toDate` condition; the logs passing all conditions are the second alone. The
same log is returned for `fromDate` 1970-01-01. -/
theorem filterLogs_returns_log_failing_bounds :
    filterLogs (utcHost 0)
        [sampleLog "alice" .null .null, sampleLog "carol" (.str "2024-03-10T09:00") .null]
        { searchTerm := "", fromDate := "", toDate := "2024-03-31" } =
      [sampleLog "alice" .null .null, sampleLog "carol" (.str "2024-03-10T09:00") .null] ∧
    ¬ passesTo (utcHost 0) { searchTerm := "", fromDate := "", toDate := "2024-03-31" }
        (sampleLog "alice" .null .null) ∧
    [sampleLog "alice" .null .null, sampleLog "carol" (.str "2024-03-10T09:00") .null].filter
        (fun log => decide (passesAll (utcHost 0)
          { searchTerm := "", fromDate := "", toDate := "2024-03-31" } log)) =
      [sampleLog "carol" (.str "2024-03-10T09:00") .null] ∧
    filterLogs (utcHost 0)
        [sampleLog "alice" .null .null, sampleLog "carol" (.str "2024-03-10T09:00") .null]
        { searchTerm := "", fromDate := "1970-01-01", toDate := "" } =
      [sampleLog "alice" .null .null, sampleLog "carol" (.str "2024-03-10T09:00") .null] ∧
    ¬ passesFrom (utcHost 0) { searchTerm := "", fromDate := "1970-01-01", toDate := "" }
        (sampleLog "alice" .null .null) := by
  decide

/-- C2: filtering the filtered list again with the same criteria changes
nothing. -/
theorem filterLogs_idempotent (env : Env) (logs : List Log) (c : Criteria) :
    filterLogs env (filterLogs env logs c) c = filterLogs env logs c := by
  rw [filterLogs_eq_filter env (filterLogs env logs c) c, filterLogs_eq_filter env logs c,
    List.filter_filter]
  simp

/-- C10: with an empty search term and no date bounds the filter returns the
list itself. -/
theorem filterLogs_empty_criteria (env : Env) (logs : List Log) :
    filterLogs env logs { searchTerm := "", fromDate := "", toDate := "" } = logs := by
  simp [filterLogs, jsTrim]

/-- C3, evaluated: with only `toDate` set, a log whose checkIn is `null` is kept
(its Date is the epoch), while one whose checkIn is missing is dropped. -/
theorem filterLogs_toDate_keeps_null_checkIn :
    filterLogs (utcHost 0)
      [sampleLog "alice" .null .null, sampleLog "bob" .undefined .null]
      { searchTerm := "", fromDate := "", toDate := "2024-03-31" } =
      [sampleLog "alice" .null .null] ∧
    (sampleLog "alice" .null .null).checkIn.truthy = false := by
  decide

/-- C4, refuted: the term `1` occurs in the username `alice1`, yet the filter
also returns the log of `bob`, whose username does not contain it, because the
date string `1/11/2024` of its checkIn does. -/
theorem filterLogs_search_returns_other_user :
    jsTrim "1" ≠ "" ∧
    usernameContains (utcHost 0) "1" (sampleLog "alice1" (.str "2024-04-09T10:30") .null) = true ∧
    sampleLog "bob" (.str "2024-01-11T10:30") .null ∈
      filterLogs (utcHost 0)
        [sampleLog "alice1" (.str "2024-04-09T10:30") .null,
         sampleLog "bob" (.str "2024-01-11T10:30") .null]
        { searchTerm := "1", fromDate := "", toDate := "" } ∧
    usernameContains (utcHost 0) "1" (sampleLog "bob" (.str "2024-01-11T10:30") .null) = false := by
  decide

/-- C4, amended: for a non-blank term and no date bounds the filter returns, in
the original order, exactly the logs whose username contains the term or whose
checkIn date string contains it (lower-cased); when no log of the list matches
on its date string, only logs whose username contains the term are returned. -/
theorem filterLogs_search_only (env : Env) (logs : List Log) (t : String)
    (ht : jsTrim t ≠ "") :
    (filterLogs env logs { searchTerm := t, fromDate := "", toDate := "" }).Sublist logs ∧
    (∀ log, log ∈ filterLogs env logs { searchTerm := t, fromDate := "", toDate := "" } ↔
      log ∈ logs ∧ (usernameContains env t log = true ∨ dateTextContains env t log = true)) ∧
    ((∀ log ∈ logs, dateTextContains env t log = false) →
      ∀ log ∈ filterLogs env logs { searchTerm := t, fromDate := "", toDate := "" },
        usernameContains env t log = true) := by
  have h : filterLogs env logs { searchTerm := t, fromDate := "", toDate := "" } =
      logs.filter (searchMatch env t) := by
    simp [filterLogs, ht]
  have hmem : ∀ log, log ∈ filterLogs env logs { searchTerm := t, fromDate := "", toDate := "" } ↔
      log ∈ logs ∧ (usernameContains env t log = true ∨ dateTextContains env t log = true) := by
    intro log
    rw [h, List.mem_filter, searchMatch_iff]
  refine ⟨?_, hmem, ?_⟩
  · rw [h]
    exact List.filter_sublist logs
  · intro hnone log hlog
    obtain ⟨hin, hor⟩ := (hmem log).mp hlog
    rcases hor with hu | hd
    · exact hu
    · rw [hnone log hin] at hd
      exact absurd hd (by decide)

theorem filterLogs_search_only_witness :
    jsTrim "ALI" ≠ "" ∧
    ((filterLogs (utcHost 0)
        [sampleLog "Alice" (.str "2024-04-09T10:30") .null,
         sampleLog "bob" (.str "2024-02-12T10:30") .null]
        { searchTerm := "ALI", fromDate := "", toDate := "" }).Sublist
        [sampleLog "Alice" (.str "2024-04-09T10:30") .null,
         sampleLog "bob" (.str "2024-02-12T10:30") .null] ∧
     (∀ log, log ∈ filterLogs (utcHost 0)
        [sampleLog "Alice" (.str "2024-04-09T10:30") .null,
         sampleLog "bob" (.str "2024-02-12T10:30") .null]
        { searchTerm := "ALI", fromDate := "", toDate := "" } ↔
        log ∈ [sampleLog "Alice" (.str "2024-04-09T10:30") .null,
               sampleLog "bob" (.str "2024-02-12T10:30") .null] ∧
          (usernameContains (utcHost 0) "ALI" log = true ∨
            dateTextContains (utcHost 0) "ALI" log = true)) ∧
     ((∀ log ∈ [sampleLog "Alice" (.str "2024-04-09T10:30") .null,
                sampleLog "bob" (.str "2024-02-12T10:30") .null],
         dateTextContains (utcHost 0) "ALI" log = false) →
       ∀ log ∈ filterLogs (utcHost 0)
          [sampleLog "Alice" (.str "2024-04-09T10:30") .null,
           sampleLog "bob" (.str "2024-02-12T10:30") .null]
          { searchTerm := "ALI", fromDate := "", toDate := "" },
         usernameContains (utcHost 0) "ALI" log = true)) :=
  ⟨by decide, filterLogs_search_only (utcHost 0) _ "ALI" (by decide)⟩

/-! ## Theorems on the employee dashboard -/

theorem generateMonthlySummary_of_ne_nil (env : Env) (personalLogs : List Log)
    (h : personalLogs ≠ []) :
    generateMonthlySummary env personalLogs =
      some { totalDays := ((monthlyLogs env personalLogs).length : Int)
             presentDays :=
               (((monthlyLogs env personalLogs).filter (fun log => log.checkIn.truthy)).length : Int)
             absentDays := ((monthlyLogs env personalLogs).length : Int) -
               (((monthlyLogs env personalLogs).filter (fun log => log.checkIn.truthy)).length : Int)
             totalHours := ((monthlyLogs env personalLogs).foldl (hoursStep env)
               (.fin 0 0)).toFixed2 env.largeToString } := by
  have hlen : ¬ personalLogs.length = 0 := fun h0 => h (List.length_eq_zero.mp h0)
  simp only [generateMonthlySummary, hlen, if_false]

/-- C5: for a non-empty log list the monthly summary exists and satisfies
`presentDays + absentDays = totalDays` with `0 ≤ absentDays`, that is
`presentDays ≤ totalDays`, whatever the current date. -/
theorem generateMonthlySummary_days (env : Env) (personalLogs : List Log)
    (h : personalLogs ≠ []) :
    ∃ s, generateMonthlySummary env personalLogs = some s ∧
      s.presentDays + s.absentDays = s.totalDays ∧ 0 ≤ s.absentDays ∧
      s.presentDays ≤ s.totalDays := by
  have hle : ((monthlyLogs env personalLogs).filter (fun log => log.checkIn.truthy)).length ≤
      (monthlyLogs env personalLogs).length := List.length_filter_le _ _
  refine ⟨_, generateMonthlySummary_of_ne_nil env personalLogs h, ?_, ?_, ?_⟩
  · simp
  · simp only [sub_nonneg, Nat.cast_le]
    exact hle
  · simp only [Nat.cast_le]
    exact hle

theorem generateMonthlySummary_days_witness :
    [sampleLog "a" (.str "2024-03-05T10:15") .null, sampleLog "a" .null .null] ≠ [] ∧
    ∃ s, generateMonthlySummary (utcHost 1710000000000)
        [sampleLog "a" (.str "2024-03-05T10:15") .null, sampleLog "a" .null .null] = some s ∧
      s.presentDays + s.absentDays = s.totalDays ∧ 0 ≤ s.absentDays ∧
      s.presentDays ≤ s.totalDays :=
  ⟨by decide, generateMonthlySummary_days (utcHost 1710000000000) _ (by decide)⟩

/-- C7: after a successful fetch the status is `checked-in` exactly when the
list is non-empty and its first log has a checkIn and no checkOut; in every
other case it is `checked-out`; the later elements play no part. -/
theorem fetchLogs_status (env : Env) (st : State) (data : List Log) :
    ((fetchLogs env st (some data)).currentStatus = "checked-in" ↔
      ∃ first rest, data = first :: rest ∧ first.checkIn.truthy = true ∧
        first.checkOut.truthy = false) ∧
    ((fetchLogs env st (some data)).currentStatus = "checked-in" ∨
      (fetchLogs env st (some data)).currentStatus = "checked-out") ∧
    (∀ first rest rest',
      (fetchLogs env st (some (first :: rest))).currentStatus =
        (fetchLogs env st (some (first :: rest'))).currentStatus) := by
  have hs : ∀ d, (fetchLogs env st (some d)).currentStatus = deriveStatus d := fun _ => rfl
  have hne : ("checked-out" : String) ≠ "checked-in" := by decide
  refine ⟨?_, ?_, ?_⟩
  · rw [hs]
    cases data with
    | nil => simp [deriveStatus, hne]
    | cons first rest =>
      by_cases hc : first.checkIn.truthy = true <;>
        by_cases ho : first.checkOut.truthy = true <;>
        simp [deriveStatus, hc, ho, hne]
  · rw [hs]
    cases data with
    | nil => exact Or.inr rfl
    | cons first rest =>
      by_cases hc : first.checkIn.truthy = true <;>
        by_cases ho : first.checkOut.truthy = true <;>
        simp [deriveStatus, hc, ho]
  · intro first rest rest'
    rfl

/-- C9: when the request fails, `handleCheckIn` and `handleCheckOut` leave the
status, both log lists and both summaries untouched; the message becomes the
backend's error text when that is a non-empty text, and the handler's own
fallback when it is missing, null or empty. -/
theorem handlers_failure (env : Env) (st : State) (res : Option (List Log)) (message : JsVal)
    (text : String) (htext : text ≠ "") :
    ((handleCheckIn env st (.failed message) res).currentStatus = st.currentStatus ∧
     (handleCheckIn env st (.failed message) res).logs = st.logs ∧
     (handleCheckIn env st (.failed message) res).teamLogs = st.teamLogs ∧
     (handleCheckIn env st (.failed message) res).monthlySummary = st.monthlySummary ∧
     (handleCheckIn env st (.failed message) res).teamSummary = st.teamSummary) ∧
    ((handleCheckOut env st (.failed message) res).currentStatus = st.currentStatus ∧
     (handleCheckOut env st (.failed message) res).logs = st.logs ∧
     (handleCheckOut env st (.failed message) res).teamLogs = st.teamLogs ∧
     (handleCheckOut env st (.failed message) res).monthlySummary = st.monthlySummary ∧
     (handleCheckOut env st (.failed message) res).teamSummary = st.teamSummary) ∧
    ((handleCheckIn env st (.failed (.str text)) res).message = text ∧
     (handleCheckOut env st (.failed (.str text)) res).message = text) ∧
    ((handleCheckIn env st (.failed .undefined) res).message =
        "Failed to check in. Please try again." ∧
     (handleCheckIn env st (.failed .null) res).message =
        "Failed to check in. Please try again." ∧
     (handleCheckIn env st (.failed (.str "")) res).message =
        "Failed to check in. Please try again.") ∧
    ((handleCheckOut env st (.failed .undefined) res).message =
        "Failed to check out. Please try again." ∧
     (handleCheckOut env st (.failed .null) res).message =
        "Failed to check out. Please try again." ∧
     (handleCheckOut env st (.failed (.str "")) res).message =
        "Failed to check out. Please try again.") := by
  refine ⟨⟨rfl, rfl, rfl, rfl, rfl⟩, ⟨rfl, rfl, rfl, rfl, rfl⟩, ⟨?_, ?_⟩, ⟨rfl, rfl, rfl⟩,
    ⟨rfl, rfl, rfl⟩⟩
  · simp [handleCheckIn, orElse, htext]
  · simp [handleCheckOut, orElse, htext]

theorem handlers_failure_witness :
    ("Already checked in today" : String) ≠ "" ∧
    (handleCheckIn (utcHost 0) (initialState (utcHost 0)) (.failed (.str "Already checked in today"))
      none).message = "Already checked in today" :=
  ⟨by decide,
    (handlers_failure (utcHost 0) (initialState (utcHost 0)) none .null "Already checked in today"
      (by decide)).2.2.1.1⟩

theorem filterE_ok {α ε : Type} (p : α → Except ε Bool) (q : α → Bool)
    (hq : ∀ x b, p x = .ok b → q x = b) :
    ∀ (xs ys : List α), filterE p xs = .ok ys → ys = xs.filter q := by
  intro xs
  induction xs with
  | nil =>
    intro ys h
    simp only [filterE, Except.ok.injEq] at h
    simp [← h]
  | cons x xs ih =>
    intro ys h
    simp only [filterE] at h
    cases hp : p x with
    | error err => simp [hp] at h
    | ok b =>
      cases hr : filterE p xs with
      | error err => simp [hp, hr] at h
      | ok zs =>
        simp only [hp, hr, Except.ok.injEq] at h
        have hz := ih zs hr
        have hb := hq x b hp
        subst hz
        cases b <;> simp [List.filter_cons, hb, ← h]

theorem checkedInToday_spec (env : Env) (log : Log) (b : Bool)
    (h : checkedInToday env (slice10 (isoString env.now)) log = .ok b) :
    checkedInTodaySpec env log = b := by
  unfold checkedInToday at h
  unfold checkedInTodaySpec
  by_cases hc : log.checkIn.truthy = true
  · cases hd : newDate env log.checkIn with
    | none => simp [hc, hd, toISOString] at h
    | some t =>
      simp only [hc, hd, toISOString, Option.map_some', if_true, Except.ok.injEq] at h
      simp [hc, ← h]
  · simp only [hc, Bool.false_eq_true, if_false, Except.ok.injEq] at h
    simp [hc, ← h]

/-- C8: whenever a team summary is produced, `totalEmployees` is the number of
distinct employee keys, `presentToday` the number of logs checked in today (one
per log, not per employee) and `absentToday` their difference; one employee
with two logs checked in today gives 1, 2 and -1. -/
theorem generateTeamSummary_absentToday (env : Env) (teamLogsData : List Log) (s : TeamSummary)
    (h : generateTeamSummary env teamLogsData = .ok (some s)) :
    s.totalEmployees = ((teamLogsData.map employeeKey).toFinset.card : Int) ∧
    s.presentToday = ((teamLogsData.filter (checkedInTodaySpec env)).length : Int) ∧
    s.absentToday = s.totalEmployees - s.presentToday ∧
    generateTeamSummary (utcHost 1710000000000)
        [sampleLog "ann" (.str "2024-03-09T08:00") .null,
         sampleLog "ann" (.str "2024-03-09T08:30") .null] =
      .ok (some { totalEmployees := 1, presentToday := 2, absentToday := -1,
                  lateArrivals := 0 }) := by
  unfold generateTeamSummary at h
  by_cases h0 : teamLogsData.length = 0
  · simp [h0] at h
  · simp only [h0, if_false] at h
    cases hf : filterE (checkedInToday env (slice10 (isoString env.now))) teamLogsData with
    | error err => simp [hf] at h
    | ok present =>
      simp only [hf, Except.ok.injEq, Option.some.injEq] at h
      have hp := filterE_ok _ _ (checkedInToday_spec env) teamLogsData present hf
      subst hp
      subst h
      refine ⟨?_, rfl, rfl, by decide⟩
      simp [List.card_toFinset]

theorem generateTeamSummary_absentToday_witness :
    generateTeamSummary (utcHost 1710000000000)
        [sampleLog "ann" (.str "2024-03-09T08:00") .null, sampleLog "bob" .null .null] =
      .ok (some { totalEmployees := 2, presentToday := 1, absentToday := 1,
                  lateArrivals := 0 }) ∧
    ((2 : Int) = (([sampleLog "ann" (.str "2024-03-09T08:00") .null,
        sampleLog "bob" .null .null].map employeeKey).toFinset.card : Int) ∧
     (1 : Int) = (([sampleLog "ann" (.str "2024-03-09T08:00") .null,
        sampleLog "bob" .null .null].filter
          (checkedInTodaySpec (utcHost 1710000000000))).length : Int) ∧
     (1 : Int) = (2 : Int) - 1 ∧
     generateTeamSummary (utcHost 1710000000000)
        [sampleLog "ann" (.str "2024-03-09T08:00") .null,
         sampleLog "ann" (.str "2024-03-09T08:30") .null] =
      .ok (some { totalEmployees := 1, presentToday := 2, absentToday := -1,
                  lateArrivals := 0 })) :=
  ⟨by decide,
    generateTeamSummary_absentToday (utcHost 1710000000000)
      [sampleLog "ann" (.str "2024-03-09T08:00") .null, sampleLog "bob" .null .null]
      { totalEmployees := 2, presentToday := 1, absentToday := 1, lateArrivals := 0 }
      (by decide)⟩

/-! ## Lemmas on the number model -/

theorem log2Fuel_spec : ∀ (fuel n : Nat), 0 < n → n ≤ fuel →
    2 ^ log2Fuel fuel n ≤ n ∧ n < 2 ^ (log2Fuel fuel n + 1) := by
  intro fuel
  induction fuel with
  | zero => intro n h0 h1; omega
  | succ fuel ih =>
    intro n h0 h1
    unfold log2Fuel
    by_cases h2 : n < 2
    · simp only [h2, if_true]
      omega
    · simp only [h2, if_false]
      have hih := ih (n / 2) (by omega) (by omega)
      rw [pow_succ, pow_succ, pow_succ]
      omega

theorem floorLog2_spec (n : Nat) (h : 0 < n) :
    2 ^ floorLog2 n ≤ n ∧ n < 2 ^ (floorLog2 n + 1) :=
  log2Fuel_spec n n h (le_refl n)

theorem scaleBy_pos (p q : Nat) (e : Int) (hq : 0 < q) : 0 < (scaleBy p q e).2 := by
  unfold scaleBy
  split
  · exact Nat.mul_pos hq (pow_pos (by norm_num) _)
  · exact hq

theorem scaleBy_ratio (p q : Nat) (e : Int) (hq : 0 < q) :
    ((scaleBy p q e).1 : ℚ) / ((scaleBy p q e).2 : ℚ) = (p : ℚ) / (q : ℚ) * (2 : ℚ) ^ (-e) := by
  have hq' : (q : ℚ) ≠ 0 := by exact_mod_cast hq.ne'
  unfold scaleBy
  by_cases he : 0 ≤ e
  · simp only [he, if_true]
    have h2 : ((2 : ℚ) ^ e.toNat) = (2 : ℚ) ^ e := by
      rw [← zpow_natCast, Int.toNat_of_nonneg he]
    push_cast
    rw [h2, zpow_neg]
    field_simp
  · simp only [he, if_false]
    have h2 : ((2 : ℚ) ^ (-e).toNat) = (2 : ℚ) ^ (-e) := by
      rw [← zpow_natCast, Int.toNat_of_nonneg (by omega)]
    push_cast
    rw [h2]
    ring

theorem normal_exponent (p q : Nat) (hp : 0 < p) (hq : 0 < q) :
    (2 : ℚ) ^ (52 : Int) ≤ (p : ℚ) / q * (2 : ℚ) ^ (-normalExponent p q) ∧
      (p : ℚ) / q * (2 : ℚ) ^ (-normalExponent p q) < (2 : ℚ) ^ (53 : Int) := by
  have hdef : normalExponent p q =
      if (scaleBy p q ((floorLog2 p : Int) - (floorLog2 q : Int) - 52)).1 <
          2 ^ 52 * (scaleBy p q ((floorLog2 p : Int) - (floorLog2 q : Int) - 52)).2
      then (floorLog2 p : Int) - (floorLog2 q : Int) - 52 - 1
      else (floorLog2 p : Int) - (floorLog2 q : Int) - 52 := rfl
  generalize he0 : (floorLog2 p : Int) - (floorLog2 q : Int) - 52 = e0 at hdef
  generalize normalExponent p q = e1 at hdef
  have hq' : (0 : ℚ) < q := by exact_mod_cast hq
  obtain ⟨hp1, hp2⟩ := floorLog2_spec p hp
  obtain ⟨hq1, hq2⟩ := floorLog2_spec q hq
  have hp1' : (2 : ℚ) ^ (floorLog2 p : Int) ≤ p := by
    rw [zpow_natCast]; exact_mod_cast hp1
  have hp2' : (p : ℚ) < (2 : ℚ) ^ ((floorLog2 p : Int) + 1) := by
    have : (p : ℚ) < (2 : ℚ) ^ (floorLog2 p + 1) := by exact_mod_cast hp2
    rw [← zpow_natCast] at this
    push_cast at this
    exact this
  have hq1' : (2 : ℚ) ^ (floorLog2 q : Int) ≤ q := by
    rw [zpow_natCast]; exact_mod_cast hq1
  have hq2' : (q : ℚ) < (2 : ℚ) ^ ((floorLog2 q : Int) + 1) := by
    have : (q : ℚ) < (2 : ℚ) ^ (floorLog2 q + 1) := by exact_mod_cast hq2
    rw [← zpow_natCast] at this
    push_cast at this
    exact this
  have h2 : (0 : ℚ) < 2 := by norm_num
  have h2ne : (2 : ℚ) ≠ 0 := by norm_num
  -- bounds on the ratio scaled by e0
  have hlow : (2 : ℚ) ^ (51 : Int) < (p : ℚ) / q * (2 : ℚ) ^ (-e0) := by
    have hpos : (0 : ℚ) < (2 : ℚ) ^ (-e0) := zpow_pos h2 _
    have h1 : (2 : ℚ) ^ ((floorLog2 p : Int) - ((floorLog2 q : Int) + 1)) < (p : ℚ) / q := by
      rw [zpow_sub₀ h2ne, div_lt_div_iff₀ (zpow_pos h2 _) hq']
      calc (2 : ℚ) ^ (floorLog2 p : Int) * q < (2 : ℚ) ^ (floorLog2 p : Int) *
            (2 : ℚ) ^ ((floorLog2 q : Int) + 1) := by
            apply mul_lt_mul_of_pos_left hq2' (zpow_pos h2 _)
        _ ≤ p * (2 : ℚ) ^ ((floorLog2 q : Int) + 1) := by
            apply mul_le_mul_of_nonneg_right hp1' (le_of_lt (zpow_pos h2 _))
    have h3 : (2 : ℚ) ^ (51 : Int) =
        (2 : ℚ) ^ ((floorLog2 p : Int) - ((floorLog2 q : Int) + 1)) * (2 : ℚ) ^ (-e0) := by
      rw [← zpow_add₀ h2ne]
      congr 1
      rw [← he0]
      ring
    rw [h3]
    exact mul_lt_mul_of_pos_right h1 hpos
  have hhigh : (p : ℚ) / q * (2 : ℚ) ^ (-e0) < (2 : ℚ) ^ (53 : Int) := by
    have hpos : (0 : ℚ) < (2 : ℚ) ^ (-e0) := zpow_pos h2 _
    have h1 : (p : ℚ) / q < (2 : ℚ) ^ ((floorLog2 p : Int) + 1 - (floorLog2 q : Int)) := by
      rw [zpow_sub₀ h2ne, div_lt_div_iff₀ hq' (zpow_pos h2 _)]
      calc (p : ℚ) * (2 : ℚ) ^ (floorLog2 q : Int) <
            (2 : ℚ) ^ ((floorLog2 p : Int) + 1) * (2 : ℚ) ^ (floorLog2 q : Int) := by
            apply mul_lt_mul_of_pos_right hp2' (zpow_pos h2 _)
        _ ≤ (2 : ℚ) ^ ((floorLog2 p : Int) + 1) * q := by
            apply mul_le_mul_of_nonneg_left hq1' (le_of_lt (zpow_pos h2 _))
    have h3 : (2 : ℚ) ^ (53 : Int) =
        (2 : ℚ) ^ ((floorLog2 p : Int) + 1 - (floorLog2 q : Int)) * (2 : ℚ) ^ (-e0) := by
      rw [← zpow_add₀ h2ne]
      congr 1
      rw [← he0]
      ring
    rw [h3]
    exact mul_lt_mul_of_pos_right h1 hpos
  -- the test made by the code
  have hs := scaleBy_ratio p q e0 hq
  have hD : (0 : ℚ) < ((scaleBy p q e0).2 : ℚ) := by exact_mod_cast scaleBy_pos p q e0 hq
  have htest : (scaleBy p q e0).1 < 2 ^ 52 * (scaleBy p q e0).2 ↔
      (p : ℚ) / q * (2 : ℚ) ^ (-e0) < (2 : ℚ) ^ (52 : Int) := by
    have h52 : (2 : ℚ) ^ (52 : Int) = ((2 ^ 52 : Nat) : ℚ) := by norm_num
    rw [← hs, div_lt_iff₀ hD, h52, ← Nat.cast_mul, Nat.cast_lt]
  by_cases hc : (scaleBy p q e0).1 < 2 ^ 52 * (scaleBy p q e0).2
  · have he1 : e1 = e0 - 1 := by rw [hdef, if_pos hc]
    have hlt := htest.mp hc
    have hmul : (p : ℚ) / q * (2 : ℚ) ^ (-e1) = 2 * ((p : ℚ) / q * (2 : ℚ) ^ (-e0)) := by
      rw [he1, show -(e0 - 1) = -e0 + 1 by ring, zpow_add₀ h2ne, zpow_one]
      ring
    rw [hmul]
    constructor
    · have : (2 : ℚ) ^ (52 : Int) = 2 * (2 : ℚ) ^ (51 : Int) := by norm_num
      rw [this]
      linarith
    · have : (2 : ℚ) ^ (53 : Int) = 2 * (2 : ℚ) ^ (52 : Int) := by norm_num
      rw [this]
      linarith
  · have he1 : e1 = e0 := by rw [hdef, if_neg hc]
    have hge : ¬ (p : ℚ) / q * (2 : ℚ) ^ (-e0) < (2 : ℚ) ^ (52 : Int) := fun h => hc (htest.mpr h)
    rw [he1]
    exact ⟨not_lt.mp hge, hhigh⟩

theorem roundHalfEven_mul (k d : Nat) (hd : 0 < d) : roundHalfEven (k * d) d = k := by
  unfold roundHalfEven
  have h1 : k * d / d = k := Nat.mul_div_cancel k hd
  have h2 : k * d % d = 0 := Nat.mul_mod_left k d
  simp only [h1, h2]
  have : ¬ (d < 2 * 0 ∨ 2 * 0 = d ∧ k % 2 = 1) := by omega
  simp only [this, if_false]

theorem roundDouble_exact (negative : Bool) (p q M E : Nat) (hp : 0 < p) (hq : 0 < q)
    (hM : M < 2 ^ 53) (hE : E ≤ 900) (hv : (p : ℚ) / q = (M : ℚ) * (2 : ℚ) ^ (E : Int)) :
    ∃ (m : Nat) (e : Int),
      roundDouble negative p q = .fin (if negative then -(m : Int) else (m : Int)) e ∧
      (m : ℚ) * (2 : ℚ) ^ e = (p : ℚ) / q := by
  have h2 : (0 : ℚ) < 2 := by norm_num
  have h2ne : (2 : ℚ) ≠ 0 := by norm_num
  obtain ⟨hlo, _⟩ := normal_exponent p q hp hq
  -- the normal exponent is at most `E`
  have he1 : normalExponent p q ≤ (E : Int) := by
    by_contra hcon
    have hlt : (E : Int) - normalExponent p q ≤ -1 := by omega
    have hpow : (2 : ℚ) ^ ((E : Int) - normalExponent p q) ≤ (2 : ℚ) ^ (-1 : Int) :=
      zpow_le_zpow_right₀ (by norm_num) hlt
    have hval : (p : ℚ) / q * (2 : ℚ) ^ (-normalExponent p q) =
        (M : ℚ) * (2 : ℚ) ^ ((E : Int) - normalExponent p q) := by
      rw [hv, sub_eq_add_neg, zpow_add₀ h2ne]
      ring
    have hM' : (M : ℚ) < (2 : ℚ) ^ (53 : Int) := by
      have h53 : (2 : ℚ) ^ (53 : Int) = ((2 ^ 53 : Nat) : ℚ) := by norm_num
      rw [h53]
      exact_mod_cast hM
    have hM0 : (0 : ℚ) ≤ M := by exact_mod_cast Nat.zero_le M
    have : (M : ℚ) * (2 : ℚ) ^ ((E : Int) - normalExponent p q) < (2 : ℚ) ^ (52 : Int) := by
      calc (M : ℚ) * (2 : ℚ) ^ ((E : Int) - normalExponent p q)
          ≤ (M : ℚ) * (2 : ℚ) ^ (-1 : Int) := mul_le_mul_of_nonneg_left hpow hM0
        _ < (2 : ℚ) ^ (53 : Int) * (2 : ℚ) ^ (-1 : Int) :=
            mul_lt_mul_of_pos_right hM' (zpow_pos h2 _)
        _ = (2 : ℚ) ^ (52 : Int) := by norm_num
    rw [hval] at hlo
    exact absurd hlo (not_le.mpr this)
  generalize hedef : max (normalExponent p q) (-1074) = e
  have heE : e ≤ (E : Int) := by
    rw [← hedef]
    exact max_le he1 (by omega)
  -- the scaled ratio is the integer `K`
  obtain ⟨j, hj⟩ : ∃ j : Nat, (E : Int) - e = (j : Int) := ⟨((E : Int) - e).toNat, by omega⟩
  have hs := scaleBy_ratio p q e hq
  have hD := scaleBy_pos p q e hq
  have hD' : ((scaleBy p q e).2 : ℚ) ≠ 0 := by exact_mod_cast hD.ne'
  have hK : ((scaleBy p q e).1 : ℚ) / ((scaleBy p q e).2 : ℚ) = ((M * 2 ^ j : Nat) : ℚ) := by
    rw [hs, hv]
    push_cast
    rw [← zpow_natCast (2 : ℚ) j, ← hj, sub_eq_add_neg, zpow_add₀ h2ne]
    ring
  have hN : (scaleBy p q e).1 = M * 2 ^ j * (scaleBy p q e).2 := by
    rw [div_eq_iff hD'] at hK
    exact_mod_cast hK
  refine ⟨M * 2 ^ j, e, ?_, ?_⟩
  · unfold roundDouble
    rw [if_neg hp.ne']
    simp only [hedef]
    rw [hN, roundHalfEven_mul _ _ hD]
    have hno : ¬ (971 < e ∨ (e = 971 ∧ M * 2 ^ j = 2 ^ 53)) := by omega
    rw [if_neg hno]
  · rw [hv]
    push_cast
    rw [← zpow_natCast (2 : ℚ) j, ← hj, mul_assoc, ← zpow_add₀ h2ne]
    congr 2
    ring

theorem natAbs_cast_abs (m : Int) : ((m.natAbs : Nat) : ℚ) = |(m : ℚ)| := by
  rw [Nat.cast_natAbs, Int.cast_abs]

theorem roundDouble_isValue (negative : Bool) (p q : Nat) (hq : 0 < q)
    (hrep : Representable ((p : ℚ) / q)) :
    (roundDouble negative p q).IsValue (if negative then -((p : ℚ) / q) else (p : ℚ) / q) := by
  by_cases hp : p = 0
  · subst hp
    refine ⟨0, 0, ?_, ?_⟩
    · simp [roundDouble]
    · cases negative <;> simp
  · obtain ⟨M, E, hM, hE, hv⟩ := hrep
    have hnn : (0 : ℚ) ≤ (p : ℚ) / q := by positivity
    rw [abs_of_nonneg hnn] at hv
    obtain ⟨m, e, hr, hval⟩ := roundDouble_exact negative p q M E (Nat.pos_of_ne_zero hp) hq hM hE hv
    refine ⟨_, e, hr, ?_⟩
    cases negative
    · simpa using hval
    · simp only [if_true]
      push_cast
      rw [neg_mul, hval]

theorem roundDouble_signed (m : Int) (p q : Nat) (z : ℚ) (hq : 0 < q)
    (hsign : m < 0 ↔ z < 0) (hratio : (p : ℚ) / q = |z|) (hrep : Representable z) :
    (roundDouble (decide (m < 0)) p q).IsValue z := by
  have hrep' : Representable ((p : ℚ) / q) := by
    obtain ⟨M, E, hM, hE, hv⟩ := hrep
    exact ⟨M, E, hM, hE, by rw [hratio, abs_abs, hv]⟩
  have hv := roundDouble_isValue (decide (m < 0)) p q hq hrep'
  by_cases hm : m < 0
  · simp only [hm, decide_True, if_true] at hv ⊢
    rw [hratio, abs_of_neg (hsign.mp hm), neg_neg] at hv
    exact hv
  · simp only [hm, decide_False, Bool.false_eq_true, if_false] at hv ⊢
    have : ¬ z < 0 := fun h => hm (hsign.mpr h)
    rw [hratio, abs_of_nonneg (not_lt.mp this)] at hv
    exact hv

theorem representable_of_lt (z : Int) (h : z.natAbs < 2 ^ 53) : Representable (z : ℚ) := by
  refine ⟨z.natAbs, 0, h, by norm_num, ?_⟩
  rw [natAbs_cast_abs]
  simp

theorem ofInt_isValue (t : Int) (h : t.natAbs < 2 ^ 53) : (JsNum.ofInt t).IsValue (t : ℚ) := by
  unfold JsNum.ofInt
  apply roundDouble_signed t _ _ _ (by norm_num)
  · exact_mod_cast Iff.rfl
  · rw [natAbs_cast_abs]
    simp
  · exact representable_of_lt t h

theorem neg_isValue (a : JsNum) (x : ℚ) (h : a.IsValue x) : (JsNum.neg a).IsValue (-x) := by
  obtain ⟨m, e, rfl, hv⟩ := h
  refine ⟨-m, e, rfl, ?_⟩
  push_cast
  rw [neg_mul, hv]

theorem addFinite_isValue (m1 e1 m2 e2 : Int)
    (hrep : Representable ((m1 : ℚ) * (2 : ℚ) ^ e1 + (m2 : ℚ) * (2 : ℚ) ^ e2)) :
    (addFinite m1 e1 m2 e2).IsValue ((m1 : ℚ) * (2 : ℚ) ^ e1 + (m2 : ℚ) * (2 : ℚ) ^ e2) := by
  have h2 : (0 : ℚ) < 2 := by norm_num
  have h2ne : (2 : ℚ) ≠ 0 := by norm_num
  dsimp only [addFinite]
  generalize hedef : min e1 e2 = e
  have hle1 : e ≤ e1 := by rw [← hedef]; exact min_le_left _ _
  have hle2 : e ≤ e2 := by rw [← hedef]; exact min_le_right _ _
  generalize hmdef : m1 * 2 ^ (e1 - e).toNat + m2 * 2 ^ (e2 - e).toNat = m
  have hpow : ∀ (a : Int), e ≤ a → ((2 : ℚ) ^ (a - e).toNat) * (2 : ℚ) ^ e = (2 : ℚ) ^ a := by
    intro a ha
    rw [← zpow_natCast, Int.toNat_of_nonneg (by omega), ← zpow_add₀ h2ne]
    congr 1
    ring
  have hm : (m : ℚ) * (2 : ℚ) ^ e = (m1 : ℚ) * (2 : ℚ) ^ e1 + (m2 : ℚ) * (2 : ℚ) ^ e2 := by
    rw [← hmdef]
    push_cast
    rw [add_mul, mul_assoc, mul_assoc, hpow e1 hle1, hpow e2 hle2]
  rw [← hm] at hrep ⊢
  have hpos : (0 : ℚ) < (2 : ℚ) ^ e := zpow_pos h2 _
  apply roundDouble_signed m _ _ _ (scaleBy_pos _ _ _ (by norm_num))
  · constructor
    · intro h
      have : (m : ℚ) < 0 := by exact_mod_cast h
      exact mul_neg_of_neg_of_pos this hpos
    · intro h
      have : (m : ℚ) < 0 := by
        by_contra hcon
        exact absurd h (not_lt.mpr (mul_nonneg (not_lt.mp hcon) (le_of_lt hpos)))
      exact_mod_cast this
  · rw [scaleBy_ratio _ _ _ (by norm_num), neg_neg, natAbs_cast_abs, abs_mul,
      abs_of_pos hpos]
    simp
  · exact hrep

theorem add_isValue (a b : JsNum) (x y : ℚ) (ha : a.IsValue x) (hb : b.IsValue y)
    (hrep : Representable (x + y)) : (JsNum.add a b).IsValue (x + y) := by
  obtain ⟨m1, e1, rfl, hx⟩ := ha
  obtain ⟨m2, e2, rfl, hy⟩ := hb
  subst hx
  subst hy
  exact addFinite_isValue m1 e1 m2 e2 hrep

theorem sub_isValue (a b : JsNum) (x y : ℚ) (ha : a.IsValue x) (hb : b.IsValue y)
    (hrep : Representable (x - y)) : (JsNum.sub a b).IsValue (x - y) := by
  unfold JsNum.sub
  rw [sub_eq_add_neg] at hrep ⊢
  exact add_isValue a (JsNum.neg b) x (-y) ha (neg_isValue b y hb) hrep

theorem divNat_isValue (a : JsNum) (x : ℚ) (k : Nat) (hk : 0 < k) (ha : a.IsValue x)
    (hrep : Representable (x / k)) : (JsNum.divNat a k).IsValue (x / k) := by
  have h2 : (0 : ℚ) < 2 := by norm_num
  obtain ⟨m, e, rfl, hx⟩ := ha
  have hpos : (0 : ℚ) < (2 : ℚ) ^ e := zpow_pos h2 _
  have hk' : (0 : ℚ) < k := by exact_mod_cast hk
  dsimp only [JsNum.divNat]
  apply roundDouble_signed m _ _ _ (scaleBy_pos _ _ _ hk)
  · rw [← hx]
    constructor
    · intro h
      have : (m : ℚ) < 0 := by exact_mod_cast h
      exact div_neg_of_neg_of_pos (mul_neg_of_neg_of_pos this hpos) hk'
    · intro h
      have : (m : ℚ) < 0 := by
        by_contra hcon
        exact absurd h (not_lt.mpr (div_nonneg (mul_nonneg (not_lt.mp hcon) (le_of_lt hpos))
          (le_of_lt hk')))
      exact_mod_cast this
  · rw [scaleBy_ratio _ _ _ hk, neg_neg, natAbs_cast_abs, ← hx, abs_div, abs_mul,
      abs_of_pos hpos, abs_of_pos hk']
    ring
  · exact hrep

theorem roundHalfEven_error (N D : Nat) (hD : 0 < D) :
    |((roundHalfEven N D : Nat) : ℚ) - (N : ℚ) / D| ≤ 1 / 2 := by
  have hD' : (0 : ℚ) < D := by exact_mod_cast hD
  have hdiv : (N : ℚ) = (D : ℚ) * ((N / D : Nat) : ℚ) + ((N % D : Nat) : ℚ) := by
    exact_mod_cast (Nat.div_add_mod N D).symm
  have hr : N % D < D := Nat.mod_lt N hD
  have hr' : ((N % D : Nat) : ℚ) < D := by exact_mod_cast hr
  have hr0 : (0 : ℚ) ≤ ((N % D : Nat) : ℚ) := by positivity
  have hq : (N : ℚ) / D = ((N / D : Nat) : ℚ) + ((N % D : Nat) : ℚ) / D := by
    rw [div_eq_iff (ne_of_gt hD'), add_mul, div_mul_cancel₀ _ (ne_of_gt hD'), mul_comm]
    exact hdiv
  unfold roundHalfEven
  by_cases hc : D < 2 * (N % D) ∨ (2 * (N % D) = D ∧ N / D % 2 = 1)
  · rw [if_pos hc, hq]
    have h2 : (D : ℚ) ≤ 2 * ((N % D : Nat) : ℚ) := by
      rcases hc with h | ⟨h, _⟩
      · exact_mod_cast le_of_lt h
      · exact_mod_cast le_of_eq h.symm
    have h3 : (1 : ℚ) / 2 ≤ ((N % D : Nat) : ℚ) / D := by
      rw [div_le_div_iff₀ (by norm_num) hD']
      linarith
    have h4 : ((N % D : Nat) : ℚ) / D < 1 := by
      rw [div_lt_one hD']
      exact hr'
    push_cast
    rw [abs_le]
    constructor <;> linarith
  · rw [if_neg hc, hq]
    have h2 : 2 * ((N % D : Nat) : ℚ) ≤ (D : ℚ) := by
      have : 2 * (N % D) ≤ D := by
        by_contra hcon
        exact hc (Or.inl (by omega))
      exact_mod_cast this
    have h3 : ((N % D : Nat) : ℚ) / D ≤ 1 / 2 := by
      rw [div_le_div_iff₀ hD' (by norm_num)]
      linarith
    have h4 : (0 : ℚ) ≤ ((N % D : Nat) : ℚ) / D := by positivity
    rw [abs_le]
    constructor <;> linarith

theorem roundDouble_approx (negative : Bool) (p q : Nat) (hq : 0 < q)
    (hlow : p = 0 ∨ (2 : ℚ) ^ (-1022 : Int) ≤ (p : ℚ) / q)
    (hhigh : (p : ℚ) / q < (2 : ℚ) ^ (1023 : Int)) :
    ∃ (m : Nat) (e : Int),
      roundDouble negative p q = .fin (if negative then -(m : Int) else (m : Int)) e ∧
      |(m : ℚ) * (2 : ℚ) ^ e - (p : ℚ) / q| ≤ (2 : ℚ) ^ (-53 : Int) * ((p : ℚ) / q) := by
  have h2 : (0 : ℚ) < 2 := by norm_num
  have h2ne : (2 : ℚ) ≠ 0 := by norm_num
  by_cases hp : p = 0
  · subst hp
    refine ⟨0, 0, ?_, ?_⟩
    · cases negative <;> simp [roundDouble]
    · simp
  · have hlow' : (2 : ℚ) ^ (-1022 : Int) ≤ (p : ℚ) / q := by
      rcases hlow with h | h
      · exact absurd h hp
      · exact h
    obtain ⟨hlo, hhi⟩ := normal_exponent p q (Nat.pos_of_ne_zero hp) hq
    generalize he1 : normalExponent p q = e at hlo hhi
    have hpe : (0 : ℚ) < (2 : ℚ) ^ e := zpow_pos h2 _
    -- the ratio lies between 2^(e+52) and 2^(e+53)
    have hcancel : (2 : ℚ) ^ (-e) * (2 : ℚ) ^ e = 1 := by
      rw [← zpow_add₀ h2ne, neg_add_cancel, zpow_zero]
    have hv1 : (2 : ℚ) ^ (e + 52) ≤ (p : ℚ) / q := by
      have := mul_le_mul_of_nonneg_right hlo (le_of_lt hpe)
      rw [mul_assoc, hcancel, mul_one, ← zpow_add₀ h2ne, add_comm] at this
      exact this
    have hv2 : (p : ℚ) / q < (2 : ℚ) ^ (e + 53) := by
      have := mul_lt_mul_of_pos_right hhi hpe
      rw [mul_assoc, hcancel, mul_one, ← zpow_add₀ h2ne, add_comm] at this
      exact this
    have hge : -1074 ≤ e := by
      by_contra hcon
      have hle : e + 53 ≤ -1022 := by omega
      have := zpow_le_zpow_right₀ (show (1 : ℚ) ≤ 2 by norm_num) hle
      exact lt_irrefl _ (lt_of_le_of_lt hlow' (lt_of_lt_of_le hv2 this))
    have hle : e ≤ 970 := by
      by_contra hcon
      have hle : (1023 : Int) ≤ e + 52 := by omega
      have := zpow_le_zpow_right₀ (show (1 : ℚ) ≤ 2 by norm_num) hle
      exact lt_irrefl _ (lt_of_lt_of_le hhigh (le_trans this hv1))
    have hmax : max e (-1074) = e := max_eq_left hge
    have hs := scaleBy_ratio p q e hq
    have hD := scaleBy_pos p q e hq
    have herr := roundHalfEven_error (scaleBy p q e).1 (scaleBy p q e).2 hD
    refine ⟨roundHalfEven (scaleBy p q e).1 (scaleBy p q e).2, e, ?_, ?_⟩
    · unfold roundDouble
      rw [if_neg hp]
      simp only [he1, hmax]
      have hno : ¬ (971 < e ∨ (e = 971 ∧
          roundHalfEven (scaleBy p q e).1 (scaleBy p q e).2 = 2 ^ 53)) := by omega
      rw [if_neg hno]
    · rw [hs] at herr
      generalize ((roundHalfEven (scaleBy p q e).1 (scaleBy p q e).2 : Nat) : ℚ) = m at herr
      have hfac : m * (2 : ℚ) ^ e - (p : ℚ) / q =
          (m - (p : ℚ) / q * (2 : ℚ) ^ (-e)) * (2 : ℚ) ^ e := by
        rw [sub_mul, mul_assoc, hcancel, mul_one]
      rw [hfac, abs_mul, abs_of_pos hpe]
      have h53 : (2 : ℚ) ^ (-53 : Int) * (2 : ℚ) ^ (e + 52) = 1 / 2 * (2 : ℚ) ^ e := by
        rw [← zpow_add₀ h2ne, show (-53 : Int) + (e + 52) = e + (-1) by ring, zpow_add₀ h2ne]
        norm_num
        ring
      calc |m - (p : ℚ) / q * (2 : ℚ) ^ (-e)| * (2 : ℚ) ^ e
          ≤ 1 / 2 * (2 : ℚ) ^ e := mul_le_mul_of_nonneg_right herr (le_of_lt hpe)
        _ = (2 : ℚ) ^ (-53 : Int) * (2 : ℚ) ^ (e + 52) := h53.symm
        _ ≤ (2 : ℚ) ^ (-53 : Int) * ((p : ℚ) / q) :=
            mul_le_mul_of_nonneg_left hv1 (le_of_lt (zpow_pos h2 _))

theorem scaleBy_zero (q : Nat) (e : Int) : (scaleBy 0 q e).1 = 0 := by
  unfold scaleBy
  split <;> simp

theorem roundDouble_nonneg_approx (m : Int) (p q : Nat) (z : ℚ) (hq : 0 < q) (hm : 0 ≤ m)
    (hratio : (p : ℚ) / q = z) (hlow : p = 0 ∨ (2 : ℚ) ^ (-1022 : Int) ≤ z)
    (hhigh : z < (2 : ℚ) ^ (1023 : Int)) :
    ∃ y, (roundDouble (decide (m < 0)) p q).IsValue y ∧
      |y - z| ≤ (2 : ℚ) ^ (-53 : Int) * z := by
  have hneg : decide (m < 0) = false := by simp [not_lt.mpr hm]
  rw [hneg]
  subst hratio
  obtain ⟨m', e', hr, herr⟩ := roundDouble_approx false p q hq hlow hhigh
  refine ⟨(m' : ℚ) * (2 : ℚ) ^ e', ⟨(m' : Int), e', ?_, ?_⟩, herr⟩
  · simpa using hr
  · push_cast
    rfl

theorem add_approx (a b : JsNum) (x y : ℚ) (ha : a.IsValue x) (hb : b.IsValue y)
    (hx : 0 ≤ x) (hy : 0 ≤ y) (hlow : x + y = 0 ∨ (2 : ℚ) ^ (-1022 : Int) ≤ x + y)
    (hhigh : x + y < (2 : ℚ) ^ (1023 : Int)) :
    ∃ z, (JsNum.add a b).IsValue z ∧ |z - (x + y)| ≤ (2 : ℚ) ^ (-53 : Int) * (x + y) := by
  have h2 : (0 : ℚ) < 2 := by norm_num
  have h2ne : (2 : ℚ) ≠ 0 := by norm_num
  obtain ⟨m1, e1, rfl, hx1⟩ := ha
  obtain ⟨m2, e2, rfl, hy1⟩ := hb
  show ∃ z, (addFinite m1 e1 m2 e2).IsValue z ∧ _
  dsimp only [addFinite]
  generalize hedef : min e1 e2 = e
  have hle1 : e ≤ e1 := by rw [← hedef]; exact min_le_left _ _
  have hle2 : e ≤ e2 := by rw [← hedef]; exact min_le_right _ _
  generalize hmdef : m1 * 2 ^ (e1 - e).toNat + m2 * 2 ^ (e2 - e).toNat = m
  have hpow : ∀ (a : Int), e ≤ a → ((2 : ℚ) ^ (a - e).toNat) * (2 : ℚ) ^ e = (2 : ℚ) ^ a := by
    intro a ha
    rw [← zpow_natCast, Int.toNat_of_nonneg (by omega), ← zpow_add₀ h2ne]
    congr 1
    ring
  have hm : (m : ℚ) * (2 : ℚ) ^ e = x + y := by
    rw [← hmdef, ← hx1, ← hy1]
    push_cast
    rw [add_mul, mul_assoc, mul_assoc, hpow e1 hle1, hpow e2 hle2]
  have hpos : (0 : ℚ) < (2 : ℚ) ^ e := zpow_pos h2 _
  have hm0 : 0 ≤ m := by
    by_contra hcon
    have : (m : ℚ) < 0 := by exact_mod_cast not_le.mp hcon
    have := mul_neg_of_neg_of_pos this hpos
    linarith
  have hm0' : (0 : ℚ) ≤ (m : ℚ) := by exact_mod_cast hm0
  apply roundDouble_nonneg_approx m _ _ (x + y) (scaleBy_pos _ _ _ (by norm_num)) hm0
  · rw [scaleBy_ratio _ _ _ (by norm_num), neg_neg, natAbs_cast_abs, abs_of_nonneg hm0']
    simpa using hm
  · rcases hlow with h | h
    · left
      have hmz : (m : ℚ) = 0 := by
        rw [← hm] at h
        rcases mul_eq_zero.mp h with h' | h'
        · exact h'
        · exact absurd h' (ne_of_gt hpos)
      have : m = 0 := by exact_mod_cast hmz
      rw [this]
      exact scaleBy_zero 1 (-e)
    · exact Or.inr h
  · exact hhigh

theorem divNat_approx (a : JsNum) (x : ℚ) (k : Nat) (hk : 0 < k) (ha : a.IsValue x)
    (hx : 0 ≤ x) (hlow : x = 0 ∨ (2 : ℚ) ^ (-1022 : Int) ≤ x / k)
    (hhigh : x / k < (2 : ℚ) ^ (1023 : Int)) :
    ∃ z, (JsNum.divNat a k).IsValue z ∧ |z - x / k| ≤ (2 : ℚ) ^ (-53 : Int) * (x / k) := by
  have h2 : (0 : ℚ) < 2 := by norm_num
  obtain ⟨m, e, rfl, hx1⟩ := ha
  have hpos : (0 : ℚ) < (2 : ℚ) ^ e := zpow_pos h2 _
  have hm0 : 0 ≤ m := by
    by_contra hcon
    have : (m : ℚ) < 0 := by exact_mod_cast not_le.mp hcon
    have := mul_neg_of_neg_of_pos this hpos
    linarith
  have hm0' : (0 : ℚ) ≤ (m : ℚ) := by exact_mod_cast hm0
  dsimp only [JsNum.divNat]
  apply roundDouble_nonneg_approx m _ _ (x / k) (scaleBy_pos _ _ _ hk) hm0
  · rw [scaleBy_ratio _ _ _ hk, neg_neg, natAbs_cast_abs, abs_of_nonneg hm0', ← hx1]
    ring
  · rcases hlow with h | h
    · left
      have hmz : (m : ℚ) = 0 := by
        rw [← hx1] at h
        rcases mul_eq_zero.mp h with h' | h'
        · exact h'
        · exact absurd h' (ne_of_gt hpos)
      have : m = 0 := by exact_mod_cast hmz
      rw [this]
      exact scaleBy_zero k (-e)
    · exact Or.inr h
  · exact hhigh

/-! ## Total hours -/

theorem foldl_hoursStep (env : Env) (logs : List Log) :
    ∀ acc : JsNum, logs.foldl (hoursStep env) acc =
      (logs.filter hasBoth).foldl (fun sum log => JsNum.add sum (hoursOf env log)) acc := by
  induction logs with
  | nil => intro acc; rfl
  | cons log rest ih =>
    intro acc
    cases hb : hasBoth log with
    | true =>
      have hb' : (log.checkIn.truthy && log.checkOut.truthy) = true := hb
      simp only [List.foldl_cons, List.filter_cons, hb, if_true, ih]
      simp only [hoursStep, hb', if_true, hoursOf]
    | false =>
      have hb' : (log.checkIn.truthy && log.checkOut.truthy) = false := hb
      simp only [List.foldl_cons, List.filter_cons, hb, Bool.false_eq_true, if_false, ih]
      simp only [hoursStep, hb', Bool.false_eq_true, if_false]

/-- C6, refuted: one log from 08:00:00 to 09:00:18 lasts exactly 1.005 hours,
which rounds to 1.01, but `totalHours` is `1.00`: the quotient is the double
just below 1.005. Rounding halves to even does not describe it either: one log
of 18 seconds, exactly 0.005 hours, would give 0.00 and `totalHours` is `0.01`. -/
theorem totalHours_not_exact_rounding :
    (∃ s, generateMonthlySummary (utcHost 1710000000000)
        [sampleLog "a" (.str "2024-03-01T08:00:00") (.str "2024-03-01T09:00:18")] = some s ∧
      s.totalHours = "1.00" ∧
      exactHours (utcHost 1710000000000)
        [sampleLog "a" (.str "2024-03-01T08:00:00") (.str "2024-03-01T09:00:18")] = 201 / 200 ∧
      specTotalHours (utcHost 1710000000000)
        [sampleLog "a" (.str "2024-03-01T08:00:00") (.str "2024-03-01T09:00:18")] = "1.01" ∧
      s.totalHours ≠ specTotalHours (utcHost 1710000000000)
        [sampleLog "a" (.str "2024-03-01T08:00:00") (.str "2024-03-01T09:00:18")]) ∧
    (∃ s, generateMonthlySummary (utcHost 1710000000000)
        [sampleLog "a" (.str "2024-03-01T08:00:00") (.str "2024-03-01T08:00:18")] = some s ∧
      s.totalHours = "0.01" ∧
      exactHours (utcHost 1710000000000)
        [sampleLog "a" (.str "2024-03-01T08:00:00") (.str "2024-03-01T08:00:18")] = 1 / 200 ∧
      specTotalHoursHalfEven (utcHost 1710000000000)
        [sampleLog "a" (.str "2024-03-01T08:00:00") (.str "2024-03-01T08:00:18")] = "0.00" ∧
      s.totalHours ≠ specTotalHoursHalfEven (utcHost 1710000000000)
        [sampleLog "a" (.str "2024-03-01T08:00:00") (.str "2024-03-01T08:00:18")]) := by
  have hms : exactMs (utcHost 1710000000000)
      [sampleLog "a" (.str "2024-03-01T08:00:00") (.str "2024-03-01T09:00:18")] = 3618000 := by
    decide
  have hms' : exactMs (utcHost 1710000000000)
      [sampleLog "a" (.str "2024-03-01T08:00:00") (.str "2024-03-01T08:00:18")] = 18000 := by
    decide
  have hex : exactHours (utcHost 1710000000000)
      [sampleLog "a" (.str "2024-03-01T08:00:00") (.str "2024-03-01T09:00:18")] = 201 / 200 := by
    unfold exactHours
    rw [hms]
    norm_num
  have hex' : exactHours (utcHost 1710000000000)
      [sampleLog "a" (.str "2024-03-01T08:00:00") (.str "2024-03-01T08:00:18")] = 1 / 200 := by
    unfold exactHours
    rw [hms']
    norm_num
  have hspec : specTotalHours (utcHost 1710000000000)
      [sampleLog "a" (.str "2024-03-01T08:00:00") (.str "2024-03-01T09:00:18")] = "1.01" := by
    unfold specTotalHours
    rw [hex]
    have hfl : ⌊(201 / 200 : ℚ) * 100 + 1 / 2⌋ = 101 := by
      rw [Int.floor_eq_iff]
      norm_num
    rw [hfl]
    decide
  have hspec' : specTotalHoursHalfEven (utcHost 1710000000000)
      [sampleLog "a" (.str "2024-03-01T08:00:00") (.str "2024-03-01T08:00:18")] = "0.00" := by
    unfold specTotalHoursHalfEven
    rw [hex']
    have hfl : ⌊(1 / 200 : ℚ) * 100⌋ = 0 := by
      rw [Int.floor_eq_iff]
      norm_num
    have hhe : halfEvenHundredths (1 / 200) = 0 := by
      unfold halfEvenHundredths
      rw [hfl]
      norm_num
    rw [hhe]
    decide
  refine ⟨⟨_, rfl, by decide, hex, hspec, ?_⟩, ⟨_, rfl, by decide, hex', hspec', ?_⟩⟩
  · rw [hspec]
    decide
  · rw [hspec']
    decide

theorem newDate_bound (env : Env) (v : JsVal) (t : Int) (h : newDate env v = some t) :
    t.natAbs ≤ 8640000000000000 := by
  cases v with
  | undefined => simp [newDate] at h
  | null =>
    simp only [newDate, Option.some.injEq] at h
    subst h
    decide
  | str s =>
    simp only [newDate] at h
    cases hp : env.parse s with
    | none => simp [hp] at h
    | some u =>
      simp only [hp, Option.some_bind, timeClip] at h
      by_cases hu : u.natAbs ≤ 8640000000000000
      · simp only [hu, if_true, Option.some.injEq] at h
        subst h
        exact hu
      · simp [hu] at h


theorem countsThisMonth_eq (env : Env) (log : Log) :
    (inCurrentMonth env (getMonth env (some env.now)) (getFullYear env (some env.now)) log &&
      hasBoth log) = countsThisMonth env log := by
  unfold countsThisMonth
  cases hb : hasBoth log with
  | false => simp
  | true =>
    have htr : log.checkIn.truthy = true := by
      unfold hasBoth at hb
      simp only [Bool.and_eq_true] at hb
      exact hb.1
    have hnn : log.checkIn ≠ .null := by
      intro hnull
      rw [hnull] at htr
      exact absurd htr (by decide)
    unfold inCurrentMonth inMonthOfNow
    simp only [htr, if_true, newDate_eq_checkInTime env log hnn, Bool.and_true, Bool.true_and]
    cases checkInTime env log with
    | none => simp [getMonth, getFullYear, numStrictEq]
    | some t => simp [getMonth, getFullYear, numStrictEq]

theorem countedLogs_eq_filter (env : Env) (personalLogs : List Log) :
    countedLogs env personalLogs = personalLogs.filter (countsThisMonth env) := by
  unfold countedLogs monthlyLogs
  rw [List.filter_filter]
  apply List.filter_congr
  intro log _
  rw [Bool.and_comm]
  exact countsThisMonth_eq env log

theorem validSpan_dates (env : Env) (log : Log) (h : validSpan env log = true) :
    ∃ start finish, newDate env log.checkIn = some start ∧
      newDate env log.checkOut = some finish ∧ start ≤ finish ∧
      durationMs env log = finish - start := by
  unfold validSpan at h
  unfold durationMs
  cases hs : newDate env log.checkIn with
  | none => simp [hs] at h
  | some start =>
    cases hf : newDate env log.checkOut with
    | none => simp [hs, hf] at h
    | some finish =>
      simp only [hs, hf, decide_eq_true_eq] at h
      exact ⟨start, finish, rfl, rfl, h, rfl⟩

theorem durationMs_nonneg (env : Env) (log : Log) (h : validSpan env log = true) :
    0 ≤ durationMs env log := by
  obtain ⟨start, finish, _, _, hle, hd⟩ := validSpan_dates env log h
  omega

theorem sum_durationMs_nonneg (env : Env) (logs : List Log)
    (h : ∀ log ∈ logs, validSpan env log = true) : 0 ≤ (logs.map (durationMs env)).sum := by
  apply List.sum_nonneg
  intro d hd
  obtain ⟨log, hlog, rfl⟩ := List.mem_map.mp hd
  exact durationMs_nonneg env log (h log hlog)

theorem two_zpow_neg53 : (2 : ℚ) ^ (-53 : Int) = 1 / 9007199254740992 := by
  rw [zpow_neg]
  norm_num

theorem two_zpow_small : (2 : ℚ) ^ (-1022 : Int) ≤ 1 / (9007199254740992 * 3600000) := by
  have h1 : (2 : ℚ) ^ (-1022 : Int) ≤ (2 : ℚ) ^ (-75 : Int) :=
    zpow_le_zpow_right₀ (by norm_num) (by norm_num)
  have h2 : (2 : ℚ) ^ (-75 : Int) ≤ 1 / (9007199254740992 * 3600000) := by
    rw [zpow_neg]
    norm_num
  exact le_trans h1 h2

theorem two_zpow_large : (9007199254740992 : ℚ) ≤ (2 : ℚ) ^ (1023 : Int) := by
  have h1 : (2 : ℚ) ^ (53 : Int) ≤ (2 : ℚ) ^ (1023 : Int) :=
    zpow_le_zpow_right₀ (by norm_num) (by norm_num)
  have h2 : (2 : ℚ) ^ (53 : Int) = 9007199254740992 := by norm_num
  rw [h2] at h1
  exact h1

theorem hoursOf_approx (env : Env) (log : Log) (h : validSpan env log = true)
    (hd : durationMs env log < 2 ^ 53) :
    ∃ q, (hoursOf env log).IsValue q ∧
      |q - (durationMs env log : ℚ) / 3600000| ≤
        (2 : ℚ) ^ (-53 : Int) * ((durationMs env log : ℚ) / 3600000) := by
  obtain ⟨start, finish, hs, hf, hle, hdur⟩ := validSpan_dates env log h
  have hbs := newDate_bound env _ _ hs
  have hbf := newDate_bound env _ _ hf
  have hd0 : 0 ≤ durationMs env log := by omega
  unfold hoursOf
  rw [hs, hf]
  have hvs : (JsNum.ofDate (some start)).IsValue (start : ℚ) :=
    ofInt_isValue start (by norm_num; omega)
  have hvf : (JsNum.ofDate (some finish)).IsValue (finish : ℚ) :=
    ofInt_isValue finish (by norm_num; omega)
  have hdq : (finish : ℚ) - (start : ℚ) = (durationMs env log : ℚ) := by
    rw [hdur]
    push_cast
    ring
  have hrep : Representable ((finish : ℚ) - (start : ℚ)) := by
    rw [hdq]
    exact representable_of_lt _ (by omega)
  have hsub := sub_isValue _ _ _ _ hvf hvs hrep
  rw [hdq] at hsub
  have hd0q : (0 : ℚ) ≤ (durationMs env log : ℚ) := by exact_mod_cast hd0
  have hdiv := divNat_approx _ _ 3600000 (by norm_num) hsub hd0q ?_ ?_
  · simpa using hdiv
  · by_cases hz : durationMs env log = 0
    · left
      exact_mod_cast hz
    · right
      have h1 : (1 : ℚ) ≤ (durationMs env log : ℚ) := by
        have : 1 ≤ durationMs env log := by omega
        exact_mod_cast this
      have h2 := two_zpow_small
      have h3 : (1 : ℚ) / (9007199254740992 * 3600000) ≤
          (durationMs env log : ℚ) / ((3600000 : Nat) : ℚ) := by
        rw [div_le_div_iff₀ (by norm_num) (by norm_num)]
        push_cast
        nlinarith
      exact le_trans h2 h3
  · have h1 : (durationMs env log : ℚ) < 9007199254740992 := by
      have : durationMs env log < 9007199254740992 := by
        norm_num at hd
        exact hd
      exact_mod_cast this
    have h2 : (durationMs env log : ℚ) / ((3600000 : Nat) : ℚ) ≤ (durationMs env log : ℚ) := by
      apply div_le_self hd0q
      norm_num
    exact lt_of_le_of_lt h2 (lt_of_lt_of_le h1 two_zpow_large)

theorem foldl_hours_approx (env : Env) (n : Nat) (total : Int)
    (hsize : 3 * (n : Int) * total < 2 ^ 53) :
    ∀ (logs : List Log) (acc : JsNum) (a : ℚ) (i : Nat) (done : Int),
      acc.IsValue a → 0 ≤ a → 0 ≤ done → (done = 0 → a = 0) →
      |a - (done : ℚ) / 3600000| ≤
        3 * (i : ℚ) * (1 / 9007199254740992 * ((total : ℚ) / 3600000)) →
      (∀ log ∈ logs, validSpan env log = true) →
      i + logs.length = n → done + (logs.map (durationMs env)).sum = total →
      ∃ r, (logs.foldl (fun sum log => JsNum.add sum (hoursOf env log)) acc).IsValue r ∧
        0 ≤ r ∧
        |r - (total : ℚ) / 3600000| ≤
          3 * (n : ℚ) * (1 / 9007199254740992 * ((total : ℚ) / 3600000)) := by
  intro logs
  induction logs with
  | nil =>
    intro acc a i done hacc ha0 _ _ herr _ hn ht
    simp only [List.length_nil, Nat.add_zero] at hn
    simp only [List.map_nil, List.sum_nil, add_zero] at ht
    subst hn
    subst ht
    exact ⟨a, hacc, ha0, herr⟩
  | cons log rest ih =>
    intro acc a i done hacc ha0 hdone0 hzero herr hall hn ht
    have hvalid := hall log (List.mem_cons_self _ _)
    have hrest : ∀ l ∈ rest, validSpan env l = true :=
      fun l hl => hall l (List.mem_cons_of_mem _ hl)
    have hd0 := durationMs_nonneg env log hvalid
    have hS0 := sum_durationMs_nonneg env rest hrest
    simp only [List.length_cons] at hn
    simp only [List.map_cons, List.sum_cons] at ht
    generalize hddef : durationMs env log = d at hd0 ht
    generalize hSdef : (rest.map (durationMs env)).sum = S at hS0 ht
    have htot0 : 0 ≤ total := by omega
    have hn1 : (1 : Int) ≤ (n : Int) := by omega
    have htotlt : total < 2 ^ 53 := by nlinarith
    have hdlt : durationMs env log < 2 ^ 53 := by rw [hddef]; omega
    obtain ⟨q, hq, hqerr⟩ := hoursOf_approx env log hvalid hdlt
    rw [hddef, two_zpow_neg53] at hqerr
    -- rational names
    have hdq0 : (0 : ℚ) ≤ (d : ℚ) := by exact_mod_cast hd0
    have hdoneq0 : (0 : ℚ) ≤ (done : ℚ) := by exact_mod_cast hdone0
    have htotq : (total : ℚ) = (done : ℚ) + (d : ℚ) + (S : ℚ) := by
      rw [← ht]
      push_cast
      ring
    have hSq0 : (0 : ℚ) ≤ (S : ℚ) := by exact_mod_cast hS0
    have htotq0 : (0 : ℚ) ≤ (total : ℚ) := by exact_mod_cast htot0
    have hiq0 : (0 : ℚ) ≤ (i : ℚ) := by positivity
    have hq0 : 0 ≤ q := by
      have := (abs_le.mp hqerr).1
      linarith
    rw [List.foldl_cons]
    by_cases hcase : done + d = 0
    · -- nothing counted so far: the sum stays exactly zero
      have hdone : done = 0 := by omega
      have hd : d = 0 := by omega
      have ha : a = 0 := hzero hdone
      have hqz : q = 0 := by
        rw [hd] at hqerr
        simp only [Int.cast_zero, zero_div, mul_zero, sub_zero] at hqerr
        exact abs_nonpos_iff.mp hqerr
      obtain ⟨r, hr, hrerr⟩ := add_approx acc (hoursOf env log) a q hacc hq ha0 hq0
        (Or.inl (by rw [ha, hqz, add_zero]))
        (by rw [ha, hqz, add_zero]; exact zpow_pos (by norm_num) _)
      have hrz : r = 0 := by
        rw [ha, hqz, add_zero, mul_zero, sub_zero] at hrerr
        exact abs_nonpos_iff.mp hrerr
      apply ih (JsNum.add acc (hoursOf env log)) r (i + 1) (done + d) hr (by rw [hrz])
        (by omega) (fun _ => hrz) ?_ hrest (by omega) (by omega)
      rw [hrz, hcase]
      simp only [Int.cast_zero, zero_div, sub_zero, abs_zero]
      positivity
    · -- the running total is positive
      have hpos : 1 ≤ done + d := by omega
      have htot1 : 1 ≤ total := by omega
      have hK : (3 * (i : Int) + 1) * total ≤ 9007199254740989 := by
        have h1 : (3 * (i : Int) + 1) ≤ 3 * (n : Int) - 2 := by omega
        have h2 : (3 * (i : Int) + 1) * total ≤ (3 * (n : Int) - 2) * total :=
          mul_le_mul_of_nonneg_right h1 htot0
        have h3 : (3 * (n : Int) - 2) * total = 3 * (n : Int) * total - 2 * total := by ring
        have h4 : (2 : Int) ^ 53 = 9007199254740992 := by norm_num
        omega
      have hKq : (3 * (i : ℚ) + 1) * (total : ℚ) ≤ 9007199254740989 := by
        exact_mod_cast hK
      have hposq : (1 : ℚ) ≤ (done : ℚ) + (d : ℚ) := by exact_mod_cast hpos
      have htotltq : (total : ℚ) < 9007199254740992 := by
        have : total < 9007199254740992 := by
          norm_num at htotlt
          exact htotlt
        exact_mod_cast this
      -- the exact sum and the error so far
      have herr1 := abs_le.mp herr
      have hqerr1 := abs_le.mp hqerr
      have hqB : 1 / 9007199254740992 * ((d : ℚ) / 3600000) ≤
          1 / 9007199254740992 * ((total : ℚ) / 3600000) := by
        linarith
      have hE1 : (3 * (i : ℚ) + 1) * (1 / 9007199254740992 * ((total : ℚ) / 3600000)) ≤
          9007199254740989 / (9007199254740992 * 3600000) := by
        have hring : (3 * (i : ℚ) + 1) * (1 / 9007199254740992 * ((total : ℚ) / 3600000)) =
            ((3 * (i : ℚ) + 1) * (total : ℚ)) * (1 / (9007199254740992 * 3600000)) := by ring
        rw [hring]
        generalize (3 * (i : ℚ) + 1) * (total : ℚ) = P at hKq
        linarith
      have hw1 : (3 : ℚ) / (9007199254740992 * 3600000) ≤ a + q := by
        generalize hEdef :
          (3 * (i : ℚ) + 1) * (1 / 9007199254740992 * ((total : ℚ) / 3600000)) = E at hE1
        have hi3 : 3 * (i : ℚ) * (1 / 9007199254740992 * ((total : ℚ) / 3600000)) +
            1 / 9007199254740992 * ((total : ℚ) / 3600000) = E := by
          rw [← hEdef]
          ring
        linarith [herr1.1, hqerr1.1]
      have hw2 : a + q ≤ 2 * ((total : ℚ) / 3600000) := by
        have htot1q : (1 : ℚ) ≤ (total : ℚ) := by exact_mod_cast htot1
        generalize hEdef :
          (3 * (i : ℚ) + 1) * (1 / 9007199254740992 * ((total : ℚ) / 3600000)) = E at hE1
        have hi3 : 3 * (i : ℚ) * (1 / 9007199254740992 * ((total : ℚ) / 3600000)) +
            1 / 9007199254740992 * ((total : ℚ) / 3600000) = E := by
          rw [← hEdef]
          ring
        linarith [herr1.2, hqerr1.2]
      obtain ⟨r, hr, hrerr⟩ := add_approx acc (hoursOf env log) a q hacc hq ha0 hq0
        (Or.inr (le_trans two_zpow_small (by
          have : (1 : ℚ) / (9007199254740992 * 3600000) ≤
              3 / (9007199254740992 * 3600000) := by norm_num
          linarith)))
        (by
          have h1 : 2 * ((total : ℚ) / 3600000) < 9007199254740992 := by linarith
          exact lt_of_le_of_lt hw2 (lt_of_lt_of_le h1 two_zpow_large))
      rw [two_zpow_neg53] at hrerr
      have hrerr1 := abs_le.mp hrerr
      have hw0 : 0 ≤ a + q := by linarith
      have hUw : 1 / 9007199254740992 * (a + q) ≤
          2 * (1 / 9007199254740992 * ((total : ℚ) / 3600000)) := by linarith
      have hr0 : 0 ≤ r := by linarith
      apply ih (JsNum.add acc (hoursOf env log)) r (i + 1) (done + d) hr hr0 (by omega)
        (fun h0 => absurd h0 hcase) ?_ hrest (by omega) (by omega)
      push_cast
      rw [abs_le]
      constructor <;> linarith [herr1.1, herr1.2, hqerr1.1, hqerr1.2]

theorem toFixed2_near (f : Nat → String) (x : JsNum) (r : ℚ) (k : Nat) (hx : x.IsValue r)
    (h0 : 0 ≤ r) (h1 : (k : ℚ) ≤ 100 * r + 1 / 2) (h2 : 100 * r + 1 / 2 < (k : ℚ) + 1)
    (hbig : r < 10 ^ 21) : x.toFixed2 f = String.mk (fixed2Digits k) := by
  have htwo : (0 : ℚ) < 2 := by norm_num
  obtain ⟨m, e, rfl, hv⟩ := hx
  have hpos : (0 : ℚ) < (2 : ℚ) ^ e := zpow_pos htwo _
  have hm : ¬ m < 0 := by
    intro hneg
    have : (m : ℚ) < 0 := by exact_mod_cast hneg
    have hlt := mul_neg_of_neg_of_pos this hpos
    rw [hv] at hlt
    exact absurd hlt (not_lt.mpr h0)
  have hD := scaleBy_pos m.natAbs 1 (-e) (by norm_num)
  have hDq : (0 : ℚ) < ((scaleBy m.natAbs 1 (-e)).2 : ℚ) := by exact_mod_cast hD
  have hs := scaleBy_ratio m.natAbs 1 (-e) (by norm_num)
  rw [neg_neg, natAbs_cast_abs, abs_of_nonneg (by exact_mod_cast not_lt.mp hm), Nat.cast_one,
    div_one, hv, div_eq_iff (ne_of_gt hDq)] at hs
  dsimp only [JsNum.toFixed2]
  generalize (scaleBy m.natAbs 1 (-e)).2 = D at hD hDq hs
  generalize (scaleBy m.natAbs 1 (-e)).1 = N at hs
  have hbig' : ¬ 10 ^ 21 * D ≤ N := by
    intro hle
    have hleq : ((10 ^ 21 * D : Nat) : ℚ) ≤ (N : ℚ) := by exact_mod_cast hle
    push_cast at hleq
    rw [hs] at hleq
    have : (10 : ℚ) ^ 21 ≤ r := le_of_mul_le_mul_right hleq hDq
    linarith
  have hrD : (k : ℚ) * D ≤ 100 * (N : ℚ) + (D : ℚ) / 2 := by
    have := mul_le_mul_of_nonneg_right h1 (le_of_lt hDq)
    rw [hs]
    linarith
  have hrD' : 100 * (N : ℚ) + (D : ℚ) / 2 < ((k : ℚ) + 1) * D := by
    have := mul_lt_mul_of_pos_right h2 hDq
    rw [hs]
    linarith
  have hn : (2 * 100 * N + D) / (2 * D) = k := by
    apply Nat.div_eq_of_lt_le
    · have : ((k * (2 * D) : Nat) : ℚ) ≤ ((2 * 100 * N + D : Nat) : ℚ) := by
        push_cast
        linarith
      exact_mod_cast this
    · have : ((2 * 100 * N + D : Nat) : ℚ) < (((k + 1) * (2 * D) : Nat) : ℚ) := by
        push_cast
        linarith
      exact_mod_cast this
  rw [if_neg hm, if_neg hbig', hn]
  apply String.ext
  simp

theorem floor_hundredths (T : Int) :
    ⌊(T : ℚ) / 3600000 * 100 + 1 / 2⌋ = (T + 18000) / 36000 := by
  rw [Int.floor_eq_iff]
  have hdiv := Int.emod_add_ediv (T + 18000) 36000
  have hmod0 := Int.emod_nonneg (T + 18000) (show (36000 : Int) ≠ 0 by norm_num)
  have hmod1 := Int.emod_lt_of_pos (T + 18000) (show (0 : Int) < 36000 by norm_num)
  have hq : ((T : ℚ) + 18000) = (((T + 18000) % 36000 : Int) : ℚ) +
      36000 * (((T + 18000) / 36000 : Int) : ℚ) := by
    exact_mod_cast hdiv.symm
  have hm0 : (0 : ℚ) ≤ (((T + 18000) % 36000 : Int) : ℚ) := by exact_mod_cast hmod0
  have hm1 : (((T + 18000) % 36000 : Int) : ℚ) < 36000 := by exact_mod_cast hmod1
  constructor <;> linarith

theorem totalHours_exact (env : Env) (personalLogs : List Log)
    (hvalid : ∀ log ∈ personalLogs, countsThisMonth env log = true → validSpan env log = true)
    (hsize : 3 * ((personalLogs.filter (countsThisMonth env)).length : Int) *
      exactMs env personalLogs < 2 ^ 53)
    (hnotie : exactMs env personalLogs % 36000 ≠ 18000) :
    JsNum.toFixed2 env.largeToString
        ((monthlyLogs env personalLogs).foldl (hoursStep env) (.fin 0 0)) =
      specTotalHours env personalLogs := by
  have hcounted : (monthlyLogs env personalLogs).filter hasBoth =
      personalLogs.filter (countsThisMonth env) := countedLogs_eq_filter env personalLogs
  rw [foldl_hoursStep, hcounted]
  have hall : ∀ log ∈ personalLogs.filter (countsThisMonth env), validSpan env log = true := by
    intro log hlog
    obtain ⟨hin, hc⟩ := List.mem_filter.mp hlog
    exact hvalid log hin hc
  have hT0 : 0 ≤ exactMs env personalLogs := sum_durationMs_nonneg env _ hall
  have h0 : (JsNum.fin 0 0).IsValue (0 : ℚ) := ⟨0, 0, rfl, by simp⟩
  obtain ⟨r, hr, hr0, herr⟩ := foldl_hours_approx env _ (exactMs env personalLogs) hsize
    (personalLogs.filter (countsThisMonth env)) (.fin 0 0) 0 0 0 h0 (le_refl _) (le_refl _)
    (fun _ => rfl) (by simp) hall (by simp) (by simp [exactMs])
  unfold specTotalHours exactHours
  rw [floor_hundredths]
  generalize hTdef : exactMs env personalLogs = T at *
  generalize hndef : (personalLogs.filter (countsThisMonth env)).length = n at *
  -- the accumulated error is below one millisecond
  have hsize' : 3 * (n : Int) * T ≤ 9007199254740991 := by
    have h4 : (2 : Int) ^ 53 = 9007199254740992 := by norm_num
    omega
  have hsizeq : 3 * (n : ℚ) * (T : ℚ) ≤ 9007199254740991 := by exact_mod_cast hsize'
  have hbound : 3 * (n : ℚ) * (1 / 9007199254740992 * ((T : ℚ) / 3600000)) <
      1 / 3600000 := by
    have hring : 3 * (n : ℚ) * (1 / 9007199254740992 * ((T : ℚ) / 3600000)) =
        (3 * (n : ℚ) * (T : ℚ)) * (1 / (9007199254740992 * 3600000)) := by ring
    rw [hring]
    generalize 3 * (n : ℚ) * (T : ℚ) = P at hsizeq
    linarith
  have herr1 := abs_le.mp herr
  -- the hundredth the exact sum rounds to
  have hdiv := Int.emod_add_ediv (T + 18000) 36000
  have hmod0 := Int.emod_nonneg (T + 18000) (show (36000 : Int) ≠ 0 by norm_num)
  have hmod1 := Int.emod_lt_of_pos (T + 18000) (show (0 : Int) < 36000 by norm_num)
  have hmodne : (T + 18000) % 36000 ≠ 0 := by omega
  have hK0 : 0 ≤ (T + 18000) / 36000 := by omega
  generalize hKdef : (T + 18000) / 36000 = K at *
  generalize hMdef : (T + 18000) % 36000 = M at *
  have hM1 : (1 : ℚ) ≤ (M : ℚ) := by
    have : 1 ≤ M := by omega
    exact_mod_cast this
  have hM2 : (M : ℚ) ≤ 35999 := by
    have : M ≤ 35999 := by omega
    exact_mod_cast this
  have hTq : (T : ℚ) + 18000 = (M : ℚ) + 36000 * (K : ℚ) := by exact_mod_cast hdiv.symm
  have hKnat : ((K.toNat : Nat) : ℚ) = (K : ℚ) := by
    have : ((K.toNat : Nat) : Int) = K := Int.toNat_of_nonneg hK0
    exact_mod_cast this
  have hTlt : (T : ℚ) < 9007199254740992 := by
    have : T < 9007199254740992 := by
      by_cases hn0 : n = 0
      · have hnil : personalLogs.filter (countsThisMonth env) = [] :=
          List.length_eq_zero.mp (hndef.trans hn0)
        have : T = 0 := by rw [← hTdef]; simp [exactMs, hnil]
        omega
      · have hn1 : (1 : Int) ≤ (n : Int) := by omega
        nlinarith
    exact_mod_cast this
  rw [toFixed2_near env.largeToString _ r K.toNat hr hr0 (by rw [hKnat]; linarith)
    (by rw [hKnat]; linarith) (by norm_num; linarith)]
  unfold renderHundredths
  rw [if_neg (by omega)]

/-- C6, amended: for a non-empty log list in which every log of the current
month and year with both a checkIn and a checkOut has valid dates, checkOut not
before checkIn, `totalHours` is the exact sum of `(checkOut - checkIn) /
3600000` over those logs rounded to two decimals, provided the sum is not
exactly halfway between two hundredths (the milliseconds are not 18000 modulo
36000) and three times the number of those logs times the milliseconds stays
below `2^53`; a log missing either timestamp adds nothing. The single log
2024-03-01T08:00 to 16:00 in March 2024 gives 1, 1, 0, 8.00. -/
theorem generateMonthlySummary_totalHours (env : Env) (personalLogs : List Log)
    (h : personalLogs ≠ [])
    (hvalid : ∀ log ∈ personalLogs, countsThisMonth env log = true → validSpan env log = true)
    (hsize : 3 * ((personalLogs.filter (countsThisMonth env)).length : Int) *
      exactMs env personalLogs < 2 ^ 53)
    (hnotie : exactMs env personalLogs % 36000 ≠ 18000) :
    (∃ s, generateMonthlySummary env personalLogs = some s ∧
      s.totalHours = specTotalHours env personalLogs) ∧
    generateMonthlySummary (utcHost 1710000000000)
        [sampleLog "a" (.str "2024-03-01T08:00") (.str "2024-03-01T16:00")] =
      some { totalDays := 1, presentDays := 1, absentDays := 0, totalHours := "8.00" } := by
  refine ⟨⟨_, generateMonthlySummary_of_ne_nil env personalLogs h, ?_⟩, by decide⟩
  exact totalHours_exact env personalLogs hvalid hsize hnotie

theorem generateMonthlySummary_totalHours_witness :
    [sampleLog "a" (.str "2024-03-05T10:15") .null,
      sampleLog "a" (.str "2024-03-06T08:00") (.str "2024-03-06T16:30"),
      sampleLog "a" (.str "2024-03-07T09:00:00") (.str "2024-03-07T17:10:07.250")] ≠ [] ∧
    (∀ log ∈ [sampleLog "a" (.str "2024-03-05T10:15") .null,
        sampleLog "a" (.str "2024-03-06T08:00") (.str "2024-03-06T16:30"),
        sampleLog "a" (.str "2024-03-07T09:00:00") (.str "2024-03-07T17:10:07.250")],
      countsThisMonth (utcHost 1710000000000) log = true →
        validSpan (utcHost 1710000000000) log = true) ∧
    exactMs (utcHost 1710000000000)
        [sampleLog "a" (.str "2024-03-05T10:15") .null,
         sampleLog "a" (.str "2024-03-06T08:00") (.str "2024-03-06T16:30"),
         sampleLog "a" (.str "2024-03-07T09:00:00") (.str "2024-03-07T17:10:07.250")] =
      60007250 ∧
    specTotalHours (utcHost 1710000000000)
        [sampleLog "a" (.str "2024-03-05T10:15") .null,
         sampleLog "a" (.str "2024-03-06T08:00") (.str "2024-03-06T16:30"),
         sampleLog "a" (.str "2024-03-07T09:00:00") (.str "2024-03-07T17:10:07.250")] =
      "16.67" ∧
    ∃ s, generateMonthlySummary (utcHost 1710000000000)
        [sampleLog "a" (.str "2024-03-05T10:15") .null,
         sampleLog "a" (.str "2024-03-06T08:00") (.str "2024-03-06T16:30"),
         sampleLog "a" (.str "2024-03-07T09:00:00") (.str "2024-03-07T17:10:07.250")] = some s ∧
      s.totalHours = specTotalHours (utcHost 1710000000000)
        [sampleLog "a" (.str "2024-03-05T10:15") .null,
         sampleLog "a" (.str "2024-03-06T08:00") (.str "2024-03-06T16:30"),
         sampleLog "a" (.str "2024-03-07T09:00:00") (.str "2024-03-07T17:10:07.250")] := by
  have hms : exactMs (utcHost 1710000000000)
      [sampleLog "a" (.str "2024-03-05T10:15") .null,
       sampleLog "a" (.str "2024-03-06T08:00") (.str "2024-03-06T16:30"),
       sampleLog "a" (.str "2024-03-07T09:00:00") (.str "2024-03-07T17:10:07.250")] =
      60007250 := by decide
  have hspec : specTotalHours (utcHost 1710000000000)
      [sampleLog "a" (.str "2024-03-05T10:15") .null,
       sampleLog "a" (.str "2024-03-06T08:00") (.str "2024-03-06T16:30"),
       sampleLog "a" (.str "2024-03-07T09:00:00") (.str "2024-03-07T17:10:07.250")] =
      "16.67" := by
    unfold specTotalHours exactHours
    rw [floor_hundredths, hms]
    decide
  exact ⟨by decide, by decide, hms, hspec,
    (generateMonthlySummary_totalHours (utcHost 1710000000000) _ (by decide) (by decide)
      (by decide) (by decide)).1⟩

/-- Outside the conditions of `generateMonthlySummary_totalHours` the rendering
and the exactly rounded sum part ways even off a tie: a span of 15523918002773999
ms rounds to 4312199445.21 hours and is shown as 4312199445.22; a checkOut one
millisecond before the checkIn is shown as -0.00; an unreadable checkOut gives
NaN. -/
theorem totalHours_outside_conditions :
    (∃ s, generateMonthlySummary farHost
        [sampleLog "a" (.str "-247246-12-02T18:59:30.702Z")
          (.str "+244688-04-18T16:12:24.701Z")] = some s ∧
      s.totalHours = "4312199445.22") ∧
    exactMs farHost
        [sampleLog "a" (.str "-247246-12-02T18:59:30.702Z")
          (.str "+244688-04-18T16:12:24.701Z")] = 15523918002773999 ∧
    (15523918002773999 : Int) % 36000 ≠ 18000 ∧
    specTotalHours farHost
        [sampleLog "a" (.str "-247246-12-02T18:59:30.702Z")
          (.str "+244688-04-18T16:12:24.701Z")] = "4312199445.21" ∧
    (∃ s, generateMonthlySummary (utcHost 1710000000000)
        [sampleLog "a" (.str "2024-03-01T08:00:00.001") (.str "2024-03-01T08:00:00.000")] =
          some s ∧
      s.totalHours = "-0.00") ∧
    (∃ s, generateMonthlySummary (utcHost 1710000000000)
        [sampleLog "a" (.str "2024-03-01T08:00:00.001") (.str "soon")] = some s ∧
      s.totalHours = "NaN") := by
  have hms : exactMs farHost
      [sampleLog "a" (.str "-247246-12-02T18:59:30.702Z")
        (.str "+244688-04-18T16:12:24.701Z")] = 15523918002773999 := by decide
  refine ⟨⟨_, rfl, by decide⟩, hms, by decide, ?_, ⟨_, rfl, by decide⟩, ⟨_, rfl, by decide⟩⟩
  unfold specTotalHours exactHours
  rw [floor_hundredths, hms]
  decide

end AttendanceTracker
